import Mathlib

/-!
Verification development for the `reporter` diagnostic-rendering engine
(`reporter.hpp`).  The C++ header is shallowly embedded: every rendering
routine becomes a pure Lean function that threads an explicit render state
(`RS`), collecting the emitted text and a flag that records whether every
string subscript performed so far was in bounds.  `uint32_t` arithmetic is
modelled on `Nat` with an explicit `% 2 ^ 32` at the operations that can
wrap.  Terminal colors are rendered through the no-color backend (escape
sequences dropped), which the engine treats as a drop-in substitute; hence
`Color.print` emits the raw string.  A `SourceFile*` is modelled by the one
observable the class exposes, its `str()` path; `nullptr` becomes `none`.
While-loops whose index advances by a data-dependent amount take an explicit
fuel argument; running out of fuel clears the in-bounds flag, and the
theorems below show the fuel supplied at every call site is sufficient.
-/

namespace reporter

/-- Embeds `reporter::SourceFile`: only `str()` is observable. -/
structure SourceFile where
  path : String
deriving DecidableEq, Repr

/-- Embeds `reporter::Location` (fields `line`, `start`, `end`, `file`). -/
structure Location where
  line : Nat
  start : Nat
  «end» : Nat
  file : Option SourceFile
deriving DecidableEq, Repr

/-- Embeds the main `Location` constructor: clamps `end` to `start + 1`
(in `uint32_t` arithmetic) whenever `end <= start`. -/
def mkLocation (line start end_ : Nat) (file : Option SourceFile) : Location :=
  if end_ ≤ start then ⟨line, start, (start + 1) % 2 ^ 32, file⟩
  else ⟨line, start, end_, file⟩

/-- Embeds the single-character `Location` constructor. -/
def mkLocationAt (lineNum loc : Nat) (src : Option SourceFile) : Location :=
  mkLocation lineNum loc ((loc + 1) % 2 ^ 32) src

/-- Embeds the default `Location()` constructor (the "non-location"). -/
def noLocation : Location := mkLocation 0 0 0 none

/-- Embeds `reporter::DiagnosticType`. -/
inductive DiagnosticType where
  | INTERNAL_ERROR | ERROR | WARNING | NOTE | HELP | UNKNOWN
deriving DecidableEq, Repr

/-- Embeds `reporter::DisplayStyle`. -/
inductive DisplayStyle where
  | RICH | SHORT
deriving DecidableEq, Repr

/-- Embeds `reporter::colors::Color`; `fg`/`bg` hold the `rang` enum codes. -/
structure Color where
  fg : Nat
  bg : Nat
  attributes : Nat
deriving DecidableEq, Repr

namespace colors

def none : Color := ⟨0, 0, 0⟩

/-- Embeds `Color::with(uint8_t)`: ORs in the attribute bits. -/
def Color.withAttrs (c : Color) (attrs : Nat) : Color :=
  ⟨c.fg, c.bg, c.attributes ||| attrs⟩

def inherit : Color := Color.withAttrs none 128
def bold : Color := Color.withAttrs none 1
def fgred : Color := ⟨31, 0, 0⟩
def fgyellow : Color := ⟨33, 0, 0⟩
def fgblack : Color := ⟨30, 0, 0⟩
def fgblue : Color := ⟨34, 0, 0⟩

end colors

/-- Embeds the `colors` member struct of `reporter::Config`. -/
structure ConfigColors where
  error : Color := colors.Color.withAttrs colors.fgred 1
  warning : Color := colors.Color.withAttrs colors.fgyellow 1
  note : Color := colors.Color.withAttrs colors.fgblack 1
  help : Color := colors.Color.withAttrs colors.fgblue 1
  message : Color := colors.bold
  border : Color := colors.inherit
  lineNum : Color := colors.inherit
  highlightLineNum : Color := colors.inherit
deriving DecidableEq, Repr

/-- Embeds the `padding` member struct of `reporter::Config`. -/
structure ConfigPadding where
  beforeLineNum : Nat := 1
  afterLineNum : Nat := 1
  borderTop : Nat := 1
  borderLeft : Nat := 1
  borderBottom : Nat := 0
deriving DecidableEq, Repr

/-- Embeds the `chars` member struct of `reporter::Config`. -/
structure ConfigChars where
  errorName : String := "Error"
  warningName : String := "Warning"
  noteName : String := "Note"
  helpName : String := "Help"
  internalErrorName : String := "Internal Error"
  shortModeLineSeperator : String := " / "
  errCodeBracketLeft : Char := '('
  errCodeBracketRight : Char := ')'
  beforeFileName : String := "╭─ "
  afterFileName : String := " ─╴"
  borderVertical : Char := '│'
  borderHorizontal : Char := '─'
  borderBottomRight : Char := '╯'
  noteBullet : Char := '•'
  lineVertical : Char := '│'
  lineBottomLeft : String := "╰ "
  arrowDown : Char := 'v'
  arrowUp : Char := '^'
  underline1 : Char := '~'
  underline2 : Char := '='
  underline3 : Char := '#'
  underline4 : Char := '*'
  underlineA : Char := '-'
  underlineB : Char := '+'
deriving DecidableEq, Repr

/-- Embeds `reporter::Config`. -/
structure Config where
  style : DisplayStyle := .RICH
  tabWidth : Nat := 4
  colors : ConfigColors := {}
  padding : ConfigPadding := {}
  chars : ConfigChars := {}
deriving DecidableEq, Repr

/-- Embeds `reporter::Diagnostic` (a nested inductive: the `secondaries`
vector holds diagnostics). -/
inductive Diagnostic where
  | mk (msg subMsg : String) (loc : Location) (errTy : DiagnosticType)
      (code : String) (secondaries : List Diagnostic)

def Diagnostic.msg : Diagnostic → String
  | .mk m _ _ _ _ _ => m

def Diagnostic.subMsg : Diagnostic → String
  | .mk _ sm _ _ _ _ => sm

def Diagnostic.loc : Diagnostic → Location
  | .mk _ _ l _ _ _ => l

def Diagnostic.errTy : Diagnostic → DiagnosticType
  | .mk _ _ _ t _ _ => t

def Diagnostic.code : Diagnostic → String
  | .mk _ _ _ _ c _ => c

def Diagnostic.secondaries : Diagnostic → List Diagnostic
  | .mk _ _ _ _ _ s => s

instance : Inhabited Diagnostic := ⟨.mk "" "" noLocation .ERROR "" []⟩

/-- Embeds the severity-specialised constructor `Note(message, location)`. -/
def Note (message : String) (location : Location) : Diagnostic :=
  .mk message "" location .NOTE "" []

/-- Embeds the severity-specialised constructor `Help(message, location)`. -/
def Help (message : String) (location : Location) : Diagnostic :=
  .mk message "" location .HELP "" []

/-- Embeds the severity-specialised constructor `Error(message, location)`. -/
def Error (message : String) (location : Location) : Diagnostic :=
  .mk message "" location .ERROR "" []

/-- Embeds `Error(message, subMessage, code, location)`. -/
def Error4 (message subMessage code : String) (location : Location) : Diagnostic :=
  .mk message subMessage location .ERROR code []

mutual

/-- Embeds `Diagnostic::with`: merge a new secondary into the first existing
secondary carrying exactly the same `Location` (recursively), or append it. -/
def Diagnostic.withDiag : Diagnostic → Diagnostic → Diagnostic
  | .mk m sm l t c secs, diag =>
    if diag.loc.file.isSome then
      match attachList secs diag with
      | some secs' => .mk m sm l t c secs'
      | none => .mk m sm l t c (secs ++ [diag])
    else .mk m sm l t c (secs ++ [diag])

/-- The `for (auto& i : secondaries)` search inside `Diagnostic::with`:
returns the updated list if some member's `Location` equals `diag`'s. -/
def attachList : List Diagnostic → Diagnostic → Option (List Diagnostic)
  | [], _ => none
  | i :: rest, diag =>
    if i.loc = diag.loc then some (i.withDiag diag :: rest)
    else match attachList rest diag with
      | some rest' => some (i :: rest')
      | none => none

end

/-- Embeds `Diagnostic::withNote(message, location)`. -/
def Diagnostic.withNote (d : Diagnostic) (message : String) (location : Location) :
    Diagnostic :=
  d.withDiag (Note message location)

/-- Embeds `Diagnostic::withHelp(message, location)`. -/
def Diagnostic.withHelp (d : Diagnostic) (message : String) (location : Location) :
    Diagnostic :=
  d.withDiag (Help message location)

/-- Embeds the no-location overload `Diagnostic::withNote(message)`, which
passes the default-constructed `Location{}`. -/
def Diagnostic.withNote' (d : Diagnostic) (message : String) : Diagnostic :=
  d.withNote message noLocation

/-- Embeds the no-location overload `Diagnostic::withHelp(message)`. -/
def Diagnostic.withHelp' (d : Diagnostic) (message : String) : Diagnostic :=
  d.withHelp message noLocation

/-! ### Sorting the secondaries -/

/-- Embeds the comparison lambda of `Diagnostic::sortSecondaries` (`file` is
the primary's file). -/
def secLT (file : Option SourceFile) (a b : Diagnostic) : Bool :=
  match a.loc.file, b.loc.file with
  | none, _ => false
  | some _, none => true
  | some fa, some fb =>
    if a.loc.file = file ∧ b.loc.file ≠ file then true
    else if a.loc.file ≠ file ∧ b.loc.file = file then false
    else if fa ≠ fb then decide (fa.path < fb.path)
    else if a.loc.line = b.loc.line then decide (a.loc.start > b.loc.start)
    else decide (a.loc.line < b.loc.line)

/-- The non-strict order induced by `secLT`: `a` need not come after `b`.
A list is `std::sort`ed by `secLT` exactly when it is pairwise `secLE`. -/
def secLE (file : Option SourceFile) (a b : Diagnostic) : Prop :=
  secLT file b a = false

instance (file : Option SourceFile) : DecidableRel (secLE file) := fun _ _ =>
  instDecidableEqBool _ _

/-- Sort key realising `secLT` as a lexicographic order (rank: 0 = primary's
file, 1 = other file, 2 = no file; then path, line, and start descending). -/
abbrev SortKey := Lex (Nat × Lex (String × Lex (Nat × OrderDual Nat)))

def sortKey (file : Option SourceFile) (d : Diagnostic) : SortKey :=
  match d.loc.file with
  | none => toLex (2, toLex ("", toLex (0, OrderDual.toDual 0)))
  | some f =>
    toLex ((if d.loc.file = file then 0 else 1),
      toLex (f.path, toLex (d.loc.line, OrderDual.toDual d.loc.start)))

/-- Embeds `Diagnostic::sortSecondaries`: `std::sort` is modelled by
insertion sort with the complement order, whose result is characterised by
the same postcondition (no pair in comparator-inversion order). -/
def Diagnostic.sortSecondaries (d : Diagnostic) : Diagnostic :=
  match d with
  | .mk m sm l t c secs => .mk m sm l t c (secs.insertionSort (secLE l.file))

/-! ### String utilities of `Diagnostic` -/

/-- One-character string (the C++ code converts `wchar_t` glyphs this way). -/
def charStr (c : Char) : String := String.mk [c]

/-- Embeds `std::string(n, ' ')`. -/
def spaces (n : Nat) : String := String.mk (List.replicate n ' ')

/-- Concatenation of a list of strings. -/
def joinStrs : List String → String
  | [] => ""
  | s :: l => s ++ joinStrs l

/-- Embeds `Diagnostic::repeat`: note the C++ loop starts at 1, so the
result always contains at least one copy of `s`. -/
def repeatStr (s : String) (n : Nat) : String :=
  s ++ joinStrs (List.replicate (n - 1) s)

/-- Embeds `Diagnostic::countChars`; Lean strings are sequences of code
points, so the UTF-8 scan of the C++ version is exactly `length`. -/
def countChars (s : String) : Nat := s.length

def splitLinesAux : List Char → List Char → List String
  | [], cur => [String.mk cur.reverse]
  | c :: rest, cur =>
    if c = '\n' then String.mk cur.reverse :: splitLinesAux rest []
    else splitLinesAux rest (c :: cur)

/-- Embeds `Diagnostic::splitLines`. -/
def splitLines (s : String) : List String := splitLinesAux s.toList []

def replaceAllAux (pat rep : List Char) : Nat → List Char → List Char
  | 0, l => l
  | _, [] => []
  | fuel + 1, c :: rest =>
    if pat ≠ [] ∧ pat.isPrefixOf (c :: rest) then
      rep ++ replaceAllAux pat rep fuel ((c :: rest).drop pat.length)
    else c :: replaceAllAux pat rep fuel rest

/-- Embeds `Diagnostic::replaceAll` (only ever called with `from = "\n"`;
the guard against an empty pattern models the C++ precondition that the
pattern is nonempty, without which the C++ loop would not terminate; the
fuel, one unit per consumed character, is sufficient by construction). -/
def replaceAll (s pat rep : String) : String :=
  String.mk (replaceAllAux pat.toList rep.toList (s.length + 1) s.toList)

/-- Embeds `Diagnostic::onSameLine`. -/
def onSameLine (a b : Diagnostic) : Bool :=
  decide (a.loc.file = b.loc.file ∧ a.loc.line = b.loc.line)

/-- Embeds `Diagnostic::tabWidth`. -/
def tabWidth (cfg : Config) (pos : Nat) : Nat :=
  if cfg.tabWidth = 0 then 0 else cfg.tabWidth - pos % cfg.tabWidth

/-- Dereference of a `SourceFile*` that the C++ code has already checked
(or is assumed) to be non-null. -/
def theFile (f : Option SourceFile) : SourceFile := f.getD ⟨""⟩

/-- `uint32_t` subtraction. -/
def sub32 (a b : Nat) : Nat := (a + (2 ^ 32 - b % 2 ^ 32)) % 2 ^ 32

/-- `uint32_t` addition. -/
def add32 (a b : Nat) : Nat := (a + b) % 2 ^ 32

/-! ### Render state -/

/-- Render state: the text emitted so far, and whether every string
subscript so far was in bounds (and every loop terminated). -/
structure RS where
  out : String
  ok : Bool
deriving DecidableEq, Repr

def emit (s : String) (st : RS) : RS := { st with out := st.out ++ s }

/-- Records the in-bounds side condition of one `line[...]` subscript. -/
def chk (b : Bool) (st : RS) : RS := { st with ok := st.ok && b }

/-- The character at a subscript; out-of-bounds reads (whose side condition
`chk` will have recorded) default to a space. -/
def charAt (line : String) (i : Nat) : Char := line.toList.getD i ' '

/-- Embeds `colors::Color::print` under the no-color backend: the escape
sequences disappear and the string itself is emitted. -/
def Color.print (_c : Color) (s : String) (st : RS) : RS := emit s st

/-- The external line accessor (`SourceFile::getLine`): file and 1-based
line number to raw line text. -/
def LineAcc := SourceFile → Nat → String

/-- Embeds `Diagnostic::tyToString`. -/
def Diagnostic.tyToString (d : Diagnostic) (cfg : Config) : String :=
  let str :=
    match d.errTy with
    | .INTERNAL_ERROR | .UNKNOWN => cfg.chars.internalErrorName
    | .ERROR => cfg.chars.errorName
    | .WARNING => cfg.chars.warningName
    | .NOTE => cfg.chars.noteName
    | .HELP => cfg.chars.helpName
  if d.code ≠ "" then
    str ++ charStr cfg.chars.errCodeBracketLeft ++ d.code ++
      charStr cfg.chars.errCodeBracketRight
  else str

/-- Embeds `Diagnostic::color`. -/
def Diagnostic.color (d : Diagnostic) (cfg : Config) : Color :=
  match d.errTy with
  | .INTERNAL_ERROR | .UNKNOWN | .ERROR => cfg.colors.error
  | .WARNING => cfg.colors.warning
  | .NOTE => cfg.colors.note
  | .HELP => cfg.colors.help

/-- Embeds `Diagnostic::maybeInherit`. -/
def Diagnostic.maybeInherit (d : Diagnostic) (cfg : Config) (c : Color) : Color :=
  if c = colors.inherit then d.color cfg else c

/-- Embeds `Diagnostic::indent`: prints `count` cells of whitespace, reading
`line[start + i]` to decide tab expansion. -/
def indent (cfg : Config) (line : String) (count start : Nat) (st : RS) : RS :=
  (List.range count).foldl (fun st i =>
    let st := chk (decide (start + i < line.length)) st
    emit (if charAt line (start + i) = '\t' then
      spaces (tabWidth cfg (start + i)) else " ") st) st

/-- Embeds `Diagnostic::printLine`: the snippet line with tabs expanded. -/
def printLine (cfg : Config) (line : String) (st : RS) : RS :=
  emit "\n" (line.toList.enum.foldl (fun st ic =>
    emit (if ic.2 = '\t' then spaces (tabWidth cfg ic.1) else charStr ic.2) st) st)

/-- Embeds `Diagnostic::getUnderline` (the `int8_t` level is modelled on
`Int`; only its comparisons with small constants and its parity are used). -/
def getUnderline (cfg : Config) (level : Int) (line : String) (idx : Nat) : String :=
  let ret : String :=
    if level = -1 then charStr cfg.chars.lineVertical
    else if level = 0 then " "
    else if level = 1 then charStr cfg.chars.underline1
    else if level = 2 then charStr cfg.chars.underline2
    else if level = 3 then charStr cfg.chars.underline3
    else if level = 4 then charStr cfg.chars.underline4
    else charStr (if level % 2 ≠ 0 then cfg.chars.underlineA else cfg.chars.underlineB)
  if charAt line idx = '\t' then repeatStr ret (tabWidth cfg idx) else ret

/-- Embeds `Diagnostic::printLeft`. -/
def printLeft (cfg : Config) (d : Diagnostic) (maxLine : Nat) (printBar : Bool)
    (st : RS) : RS :=
  let st := emit (spaces ((Nat.repr maxLine).length + cfg.padding.beforeLineNum +
    cfg.padding.afterLineNum)) st
  if printBar then
    (d.maybeInherit cfg cfg.colors.border).print
      (charStr cfg.chars.borderVertical ++ spaces cfg.padding.borderLeft) st
  else st

/-- Embeds `Diagnostic::printTop`. -/
def printTop (cfg : Config) (d : Diagnostic) (file : SourceFile) (maxLine : Nat)
    (st : RS) : RS :=
  let st := printLeft cfg d maxLine false st
  let st := (d.maybeInherit cfg cfg.colors.border).print cfg.chars.beforeFileName st
  let st := emit file.path st
  let st := (d.maybeInherit cfg cfg.colors.border).print cfg.chars.afterFileName st
  emit "\n" st

/-- Embeds `Diagnostic::printBottom`. -/
def printBottom (cfg : Config) (d : Diagnostic) (maxLine : Nat) (st : RS) : RS :=
  let st := (List.range cfg.padding.borderBottom).foldl (fun st _ =>
    emit "\n" (printLeft cfg d maxLine true st)) st
  let st := (List.range ((Nat.repr maxLine).length + cfg.padding.beforeLineNum +
    cfg.padding.afterLineNum)).foldl (fun st _ =>
    (d.maybeInherit cfg cfg.colors.border).print (charStr cfg.chars.borderHorizontal) st) st
  let st := (d.maybeInherit cfg cfg.colors.border).print
    (charStr cfg.chars.borderBottomRight) st
  emit "\n" st

/-- Embeds `Diagnostic::printLeftWithLineNum`. -/
def printLeftWithLineNum (cfg : Config) (d : Diagnostic) (lineNum maxLine : Nat)
    (printBar : Bool) (st : RS) : RS :=
  let targetSize := (Nat.repr maxLine).length + cfg.padding.beforeLineNum +
    cfg.padding.afterLineNum
  let str := spaces cfg.padding.beforeLineNum ++ Nat.repr lineNum ++
    spaces cfg.padding.afterLineNum
  let str := str ++ spaces (targetSize - str.length)
  let st := (d.maybeInherit cfg (if lineNum = d.loc.line then
    cfg.colors.highlightLineNum else cfg.colors.lineNum)).print str st
  if printBar then
    (d.maybeInherit cfg cfg.colors.border).print
      (charStr cfg.chars.borderVertical ++ spaces cfg.padding.borderLeft) st
  else st

/-- Embeds `Diagnostic::printPadding`: a "bridge" line when exactly one line
is skipped, otherwise a width-dependent ellipsis row. -/
def printPadding (cfg : Config) (d : Diagnostic) (acc : LineAcc)
    (maxLine lastLine currLine : Nat) (file : SourceFile) (st : RS) : RS :=
  if add32 lastLine 2 = currLine then
    let st := printLeftWithLineNum cfg d (sub32 currLine 1) maxLine true st
    emit (acc file (sub32 currLine 1) ++ "\n") st
  else
    let st := emit " " st
    let w := (Nat.repr maxLine).length + cfg.padding.beforeLineNum +
      cfg.padding.afterLineNum
    let st := (d.color cfg).print
      (if w = 3 then "⋯" else if w = 4 then "··" else "···") st
    emit "\n" st

/-! ### `printSecondariesOnLine` -/

/-- The clash test of the stacking loop: the candidate's span runs past the
end of `d`'s span while starting before it. -/
def clash (e d : Diagnostic) : Bool :=
  decide (e.loc.start < d.loc.«end» ∧ d.loc.«end» ≤ e.loc.«end»)

/-- The strict-overlap test of the stacking loop. -/
def overlapsInner (e d : Diagnostic) : Bool :=
  decide (d.loc.start < e.loc.start ∧ e.loc.«end» < d.loc.«end»)

/-- The `while (depth != 0) ... goto exit` descent: drop to the lowest row
whose row below causes no clash. -/
def descend (rows : List (List Diagnostic)) (e : Diagnostic) : Nat → Nat
  | 0 => 0
  | dep + 1 => if (rows.getD dep []).any (clash e) then dep + 1 else descend rows e dep

/-- One iteration of the stacking loop that assigns a same-line secondary to
a depth row. -/
def buildStep : List (List Diagnostic) × Nat → Diagnostic → List (List Diagnostic) × Nat
  | (rows, depth), e =>
    if rows.isEmpty then ([[e]], depth)
    else
      let row := rows.getD depth []
      if row.any (clash e) then
        let depth := depth + 1
        if depth = rows.length then (rows ++ [[e]], depth)
        else (rows.set depth (rows.getD depth [] ++ [e]), depth)
      else
        let depth := if row.any (overlapsInner e) then depth else descend rows e depth
        (rows.set depth (rows.getD depth [] ++ [e]), depth)

/-- The depth-row partition (`toRender`) computed by
`printSecondariesOnLine`; its input is the same-line run in the reversed
(processing) order. -/
def buildRows (run : List Diagnostic) : List (List Diagnostic) :=
  (run.foldl buildStep ([], 0)).1

/-- The connector search of the underline-row renderer: scan the rows below
row `j`, from the nearest downward, for a span starting at this column. -/
def findConn (rows : List (List Diagnostic)) (lineIdx : Nat) : Nat → Option Diagnostic
  | 0 => none
  | k + 1 =>
    match (rows.getD k []).find? (fun d => decide (d.loc.start = lineIdx)) with
    | some d => some d
    | none => findConn rows lineIdx k

/-- One column of one underline depth row: count the covering spans of this
row (the last one found supplies the color), or look for a connector. -/
def renderRowCol (cfg : Config) (rows : List (List Diagnostic)) (j : Nat)
    (line : String) (st : RS) (lineIdx : Nat) : RS :=
  let covering := (rows.getD j []).filter
    (fun c => decide (c.loc.start ≤ lineIdx ∧ lineIdx < c.loc.«end»))
  if covering.isEmpty then
    match findConn rows lineIdx j with
    | some dd => (dd.color cfg).print (getUnderline cfg (-1) line lineIdx) st
    | none => emit (getUnderline cfg 0 line lineIdx) st
  else
    match covering.getLast? with
    | some dd =>
      (dd.color cfg).print (getUnderline cfg (covering.length : Int) line lineIdx) st
    | none => emit (getUnderline cfg (covering.length : Int) line lineIdx) st

/-- The underline strips, one per depth row. -/
def renderRows (cfg : Config) (self : Diagnostic) (rows : List (List Diagnostic))
    (line : String) (maxLine : Nat) (st : RS) : RS :=
  (List.range rows.length).foldl (fun st j =>
    let st := if j ≠ 0 then printLeft cfg self maxLine true (emit "\n" st) else st
    (List.range line.length).foldl (fun st lineIdx =>
      renderRowCol cfg rows j line st lineIdx) st) st

/-- The `while (index < secondaries.size() && onSameLine(...)) index++;`
scan; the fuel supplied at the call site always exceeds the list length. -/
def scanSameLine (secs : List Diagnostic) (first : Diagnostic) :
    Nat → Nat → Nat
  | 0, index => index
  | fuel + 1, index =>
    if index < secs.length ∧ onSameLine (secs.getD index default) first then
      scanSameLine secs first fuel (index + 1)
    else index

/-- The connector scan of the message-ladder loop: among the still-pending
same-line secondaries (from position `t` on), the first one starting at
column `j`. -/
def connBar (secs : List Diagnostic) (first : Diagnostic) (t j : Nat) :
    Option Diagnostic :=
  ((secs.drop t).takeWhile (fun x => onSameLine x first)).find?
    (fun x => decide (x.loc.start = j))

/-- One column of the prefix of a message-ladder line: a vertical bar if a
pending span starts here, otherwise one indentation cell. -/
def ladderCol (cfg : Config) (secs : List Diagnostic) (first : Diagnostic)
    (line : String) (t j : Nat) (st : RS) : RS :=
  match connBar secs first t j with
  | some dd =>
    let st := chk (decide (j < line.length)) st
    let st := (dd.color cfg).print (charStr cfg.chars.lineVertical) st
    if charAt line j = '\t' ∧ tabWidth cfg j > 1 then
      emit (spaces (tabWidth cfg j - 1)) st
    else st
  | none => indent cfg line 1 j st

/-- The message-ladder loop: one label line (plus continuations and direct
children's label lines) per same-line secondary, each prefixed by the
connector bars of the spans still pending to its left. -/
def ladder (cfg : Config) (secs : List Diagnostic) (self first : Diagnostic)
    (line : String) (maxLine : Nat) : Nat → Nat → RS → Nat × RS
  | 0, t, st => (t, { st with ok := false })
  | fuel + 1, t, st =>
    if t < secs.length ∧ onSameLine (secs.getD t default) first then
      let cur := secs.getD t default
      let st := printLeft cfg self maxLine true st
      let st := (List.range cur.loc.start).foldl
        (fun st j => ladderCol cfg secs first line t j st) st
      let lines := splitLines cur.msg
      let st := lines.enum.foldl (fun st il =>
        if il.1 = 0 then
          emit "\n" ((cur.color cfg).print (cfg.chars.lineBottomLeft ++ il.2) st)
        else
          let st := printLeft cfg self maxLine true st
          let st := (List.range cur.loc.start).foldl
            (fun st j => ladderCol cfg secs first line t j st) st
          emit "\n" ((cur.color cfg).print
            (spaces (countChars cfg.chars.lineBottomLeft) ++ il.2) st)) st
      let st := cur.secondaries.foldl (fun st sec =>
        (splitLines sec.msg).enum.foldl (fun st il =>
          if cur.msg = "" ∧ il.1 = 0 then
            emit "\n" ((sec.color cfg).print il.2
              ((cur.color cfg).print cfg.chars.lineBottomLeft st))
          else
            let st := printLeft cfg self maxLine true st
            let st := (List.range sec.loc.start).foldl
              (fun st j => ladderCol cfg secs first line t j st) st
            emit "\n" ((sec.color cfg).print
              (spaces (countChars cfg.chars.lineBottomLeft) ++ il.2) st)) st) st
      ladder cfg secs self first line maxLine fuel (t + 1) st
    else (t, st)

/-- Embeds `Diagnostic::printSecondariesOnLine` (`self` is the primary;
the function returns the advanced index `i`). -/
def printSecondariesOnLine (cfg : Config) (secs : List Diagnostic)
    (self : Diagnostic) (line : String) (i maxLine : Nat) (shownAbove : Bool)
    (st : RS) : Nat × RS :=
  let first := secs.getD i default
  if ¬shownAbove ∧ first.loc = self.loc then (i + 1, st)
  else
    let st := printLeft cfg self maxLine true st
    if i + 1 ≥ secs.length ∨ onSameLine first (secs.getD (i + 1) default) = false then
      let st := indent cfg line first.loc.start 0 st
      let st := (List.range' first.loc.start (first.loc.«end» - first.loc.start)).foldl
        (fun st idx => (first.color cfg).print (getUnderline cfg 1 line idx)
          (chk (decide (idx < line.length)) st)) st
      let lines := splitLines first.msg
      let st := lines.enum.foldl (fun st il =>
        let st := if il.1 ≠ 0 then
          indent cfg line first.loc.«end» 0 (printLeft cfg self maxLine true st)
        else st
        emit "\n" ((first.color cfg).print il.2 (emit " " st))) st
      let st := first.secondaries.foldl (fun st sec =>
        (splitLines sec.msg).enum.foldl (fun st il =>
          let st := if first.msg ≠ "" ∨ il.1 ≠ 0 then
            indent cfg line sec.loc.«end» 0 (printLeft cfg self maxLine true st)
          else st
          emit "\n" ((sec.color cfg).print il.2 (emit " " st))) st) st
      (i + 1, st)
    else
      let index := scanSameLine secs first (secs.length + 1) i
      let rows := buildRows (((secs.drop i).take (index - i)).reverse)
      let st := renderRows cfg self rows line maxLine st
      let st := emit "\n" st
      ladder cfg secs self first line maxLine (secs.length + 1) i st

/-! ### `print` -/

/-- The arrow strip under (or over) the primary's span. -/
def arrows (cfg : Config) (d : Diagnostic) (line : String) (s e : Nat) (ch : Char)
    (st : RS) : RS :=
  (List.range' s (e - s)).foldl (fun st j =>
    let st := chk (decide (j < line.length)) st
    if charAt line j = '\t' then
      (d.color cfg).print (repeatStr (charStr ch) (tabWidth cfg j)) st
    else (d.color cfg).print (charStr ch) st) st

/-- The loop of `print` that renders the secondaries in the primary's file
on lines before the primary's own line; returns the advanced index and the
last rendered line number. -/
def printRich1 (cfg : Config) (acc : LineAcc) (secs : List Diagnostic)
    (d : Diagnostic) (maxLine : Nat) (printAbove : Bool) :
    Nat → Nat → Nat → RS → Nat × Nat × RS
  | 0, i, lastLine, st => (i, lastLine, { st with ok := false })
  | fuel + 1, i, lastLine, st =>
    if i < secs.length ∧ (secs.getD i default).loc.file = d.loc.file ∧
        (secs.getD i default).loc.line < d.loc.line then
      let secondary := secs.getD i default
      let st :=
        if lastLine = 0 ∧ cfg.padding.borderTop ≠ 0 then
          emit "\n" (printLeft cfg d maxLine true st)
        else if lastLine ≠ 0 ∧ lastLine < sub32 secondary.loc.line 1 then
          printPadding cfg d acc maxLine lastLine secondary.loc.line
            (theFile secondary.loc.file) st
        else st
      let lastLine := secondary.loc.line
      let line := acc (theFile d.loc.file) secondary.loc.line
      let st := printLeftWithLineNum cfg d secondary.loc.line maxLine true st
      let st := printLine cfg line st
      let r := printSecondariesOnLine cfg secs d line i maxLine printAbove st
      printRich1 cfg acc secs d maxLine printAbove fuel r.1 lastLine r.2
    else (i, lastLine, st)

/-- The loop of `print` after the primary's line: remaining file-backed
secondaries, opening and closing a bordered block per file; returns the
advanced index and the file of the block left open. -/
def printRich2 (cfg : Config) (acc : LineAcc) (secs : List Diagnostic)
    (d : Diagnostic) (maxLine : Nat) (printAbove : Bool) :
    Nat → Nat → Nat → Option SourceFile → RS → Nat × Option SourceFile × RS
  | 0, i, _, currFile, st => (i, currFile, { st with ok := false })
  | fuel + 1, i, lastLine, currFile, st =>
    if i < secs.length ∧ (secs.getD i default).loc.file.isSome then
      let secondary := secs.getD i default
      let (currFile, st) :=
        if currFile = none ∨ (theFile secondary.loc.file).path ≠ (theFile currFile).path then
          let st := if currFile ≠ none then printBottom cfg d maxLine st else st
          let currFile := secondary.loc.file
          let st := printTop cfg d (theFile currFile) maxLine st
          let st := (List.range cfg.padding.borderTop).foldl (fun st _ =>
            emit "\n" (printLeft cfg d maxLine true st)) st
          (currFile, st)
        else if lastLine < sub32 secondary.loc.line 1 then
          (currFile, printPadding cfg d acc maxLine lastLine secondary.loc.line
            (theFile secondary.loc.file) st)
        else (currFile, st)
      let lastLine := secondary.loc.line
      let line := acc (theFile currFile) secondary.loc.line
      let st := printLeftWithLineNum cfg d secondary.loc.line maxLine true st
      let st := printLine cfg line st
      let r := printSecondariesOnLine cfg secs d line i maxLine printAbove st
      printRich2 cfg acc secs d maxLine printAbove fuel r.1 lastLine currFile r.2
    else (i, currFile, st)

/-- The `afterSubMsg` tail of `print`: the remaining file-backed secondaries
(by file blocks), the closing border, and the trailing no-location bullets. -/
def printAfter (cfg : Config) (acc : LineAcc) (secs : List Diagnostic)
    (d : Diagnostic) (maxLine : Nat) (printAbove : Bool) (i lastLine : Nat)
    (currFile : Option SourceFile) (st : RS) : RS :=
  let r := printRich2 cfg acc secs d maxLine printAbove (secs.length + 1) i
    lastLine currFile st
  let st := if r.2.1.isSome then printBottom cfg d maxLine r.2.2 else r.2.2
  (secs.drop r.1).foldl (fun st secondary =>
    let st := printLeft cfg d maxLine false st
    let st := (secondary.color cfg).print
      (charStr cfg.chars.noteBullet ++ " " ++ secondary.tyToString cfg ++ ": ") st
    (splitLines secondary.msg).enum.foldl (fun st il =>
      let st := if il.1 ≠ 0 then
        emit (spaces (countChars (secondary.tyToString cfg) + 4))
          (printLeft cfg d maxLine false st)
      else st
      printLine cfg il.2 st) st) st

/-- The loop body of the `SHORT` branch: one line per secondary. -/
def printShortSecondary (cfg : Config) (st : RS) (i : Diagnostic) : RS :=
  let st := if i.loc.file.isSome then
    emit ((theFile i.loc.file).path ++ ":" ++ Nat.repr i.loc.line ++ ":" ++
      Nat.repr i.loc.start ++ ":" ++ Nat.repr i.loc.«end» ++ ": ") st
  else st
  let st := (i.color cfg).print (i.tyToString cfg ++ ": ") st
  emit (replaceAll i.msg "\n" cfg.chars.shortModeLineSeperator ++ "\n") st

/-- The `DisplayStyle::SHORT` branch of `print`. -/
def printShort (cfg : Config) (secs : List Diagnostic) (d : Diagnostic)
    (st : RS) : RS :=
  let st := if d.loc.file.isSome then
    emit ((theFile d.loc.file).path ++ ":" ++ Nat.repr d.loc.line ++ ":" ++
      Nat.repr d.loc.start ++ ":" ++ Nat.repr d.loc.«end» ++ ": ") st
  else st
  let st := (d.color cfg).print (d.tyToString cfg ++ ": ") st
  let st := (d.maybeInherit cfg cfg.colors.message).print
    (replaceAll d.msg "\n" cfg.chars.shortModeLineSeperator) st
  let st := emit "\n" st
  secs.foldl (printShortSecondary cfg) st

/-- The block of `print` that renders the primary's sub-message and
downward arrows above its source line (the `printAbove` case). -/
def primAbove (cfg : Config) (d : Diagnostic) (line : String) (maxLine : Nat)
    (st : RS) : RS :=
  let st := if d.subMsg ≠ "" then
    (splitLines d.subMsg).foldl (fun st currLine =>
      emit "\n" ((d.color cfg).print currLine
        (indent cfg line d.loc.start 0 (printLeft cfg d maxLine true st)))) st
  else st
  let st := printLeft cfg d maxLine true st
  let st := indent cfg line d.loc.start 0 st
  let st := arrows cfg d line d.loc.start d.loc.«end» cfg.chars.arrowDown st
  emit "\n" st

/-- The block of `print` that renders the primary's upward arrows and
sub-message below its source line, plus the same-Location secondary
messages that share its underline (the `¬printAbove` case). -/
def primBelow (cfg : Config) (secs : List Diagnostic) (d : Diagnostic)
    (line : String) (maxLine i : Nat) (st : RS) : RS :=
  let st := printLeft cfg d maxLine true st
  let st := indent cfg line d.loc.start 0 st
  let st := arrows cfg d line d.loc.start d.loc.«end» cfg.chars.arrowUp st
  let st := if d.subMsg = "" then emit "\n" st
  else (splitLines d.subMsg).enum.foldl (fun st il =>
    let st := if il.1 ≠ 0 then
      indent cfg line d.loc.«end» 0 (printLeft cfg d maxLine true st)
    else st
    emit "\n" ((d.color cfg).print il.2 (emit " " st))) st
  ((secs.drop i).takeWhile (fun s =>
    decide (s.loc.file = d.loc.file ∧ s.loc.line = d.loc.line))).foldl
    (fun st s =>
      if s.loc = d.loc then
        (splitLines s.msg).foldl (fun st str =>
          emit "\n" ((s.color cfg).print str
            (emit " " (indent cfg line d.loc.«end» 0
              (printLeft cfg d maxLine true st))))) st
      else st) st

/-- The part of the `RICH` branch from the primary's own line (everything
after the loop over earlier-line secondaries): gap padding, the primary's
underline and sub-message, same-line secondaries, and the `afterSubMsg`
tail. `i` and `lastLine0` are the index and last line number the first
loop returned. -/
def printRichMain (cfg : Config) (acc : LineAcc) (secs : List Diagnostic)
    (d : Diagnostic) (f : SourceFile) (maxLine : Nat) (printAbove : Bool)
    (i lastLine0 : Nat) (st : RS) : RS :=
  let line := acc f d.loc.line
  let st :=
    if lastLine0 = 0 ∧ ¬printAbove ∧ cfg.padding.borderTop ≠ 0 then
      emit "\n" (printLeft cfg d maxLine true st)
    else if lastLine0 ≠ 0 ∧ lastLine0 < sub32 d.loc.line 1 then
      printPadding cfg d acc maxLine lastLine0 d.loc.line f st
    else st
  let lastLine := d.loc.line
  let st := if printAbove then primAbove cfg d line maxLine st else st
  let st := printLeftWithLineNum cfg d d.loc.line maxLine true st
  let st := printLine cfg line st
  let st := if ¬printAbove then primBelow cfg secs d line maxLine i st else st
  let r2 :=
    if i < secs.length ∧ onSameLine (secs.getD i default) d then
      printSecondariesOnLine cfg secs d line i maxLine printAbove st
    else (i, st)
  printAfter cfg acc secs d maxLine printAbove r2.1 lastLine d.loc.file r2.2

/-- The `DisplayStyle::RICH` branch of `print` (after sorting). -/
def printRich (cfg : Config) (acc : LineAcc) (secs : List Diagnostic)
    (d : Diagnostic) (st : RS) : RS :=
  let maxLine := secs.foldl (fun m s => if s.loc.line > m then s.loc.line else m)
    d.loc.line
  let printAbove := secs.any (fun s => onSameLine s d ∧ s.loc ≠ d.loc)
  let st := if d.msg ≠ "" then
    emit "\n" ((d.maybeInherit cfg cfg.colors.message).print d.msg
      ((d.color cfg).print (d.tyToString cfg ++ ": ") st))
  else st
  match d.loc.file with
  | none => printAfter cfg acc secs d maxLine printAbove 0 0 none st
  | some f =>
    let st := printTop cfg d f maxLine st
    let st := (List.range (cfg.padding.borderTop - 1)).foldl (fun st _ =>
      emit "\n" (printLeft cfg d maxLine true st)) st
    let r1 := printRich1 cfg acc secs d maxLine printAbove (secs.length + 1) 0 0 st
    printRichMain cfg acc secs d f maxLine printAbove r1.1 r1.2.1 r1.2.2

/-- Embeds `Diagnostic::print`: sorts the secondaries, renders in the
configured style, and returns the (sorted) diagnostic together with the text
written to the sink. -/
def Diagnostic.print (d : Diagnostic) (cfg : Config) (acc : LineAcc) :
    Diagnostic × RS :=
  let d := d.sortSecondaries
  let st : RS := ⟨"", true⟩
  if cfg.style = .SHORT then (d, printShort cfg d.secondaries d st)
  else (d, printRich cfg acc d.secondaries d st)

/-- The order the spec promises for a pair `a` before `b` in the sorted
secondaries list: file-backed before file-less; primary's file before other
files; distinct non-primary files by path ascending; within one file by
line ascending, then by start column descending. -/
def claimOrder (primFile : Option SourceFile) (a b : Diagnostic) : Prop :=
  (a.loc.file = none → b.loc.file = none) ∧
  (b.loc.file = primFile ∧ b.loc.file ≠ none → a.loc.file = primFile) ∧
  (∀ fa fb, a.loc.file = some fa → b.loc.file = some fb → fa ≠ fb →
    a.loc.file ≠ primFile → b.loc.file ≠ primFile → fa.path < fb.path) ∧
  (∀ f, a.loc.file = some f → b.loc.file = some f →
    a.loc.line < b.loc.line ∨ (a.loc.line = b.loc.line ∧ b.loc.start ≤ a.loc.start))

/-- Occurrence of a diagnostic in the secondaries tree of another. -/
inductive InTree : Diagnostic → Diagnostic → Prop
  | refl (d : Diagnostic) : InTree d d
  | child (x c d : Diagnostic) : c ∈ d.secondaries → InTree x c → InTree x d

/-- Modelled from the spec's wording of the Short format: one line,
`file:line:start:end: Severity(code): message`, the location prefix omitted
when the diagnostic has no file, embedded newlines replaced by the
configured separator. -/
def specShortLine (cfg : Config) (d : Diagnostic) : String :=
  (match d.loc.file with
    | some f => f.path ++ ":" ++ Nat.repr d.loc.line ++ ":" ++
        Nat.repr d.loc.start ++ ":" ++ Nat.repr d.loc.«end» ++ ": "
    | none => "") ++
  d.tyToString cfg ++ ": " ++
  replaceAll d.msg "\n" cfg.chars.shortModeLineSeperator ++ "\n"

/-- Span cover and span overlap, on the half-open column ranges. -/
def covers (x : Diagnostic) (c : Nat) : Prop :=
  x.loc.start ≤ c ∧ c < x.loc.«end»

def lapping (x y : Diagnostic) : Prop :=
  x.loc.start < y.loc.«end» ∧ y.loc.start < x.loc.«end»

/-- The stacking contract of the spec: within one depth row, two spans that
do not overlap never put a glyph in the same column. -/
def NoRowCollision (rows : List (List Diagnostic)) : Prop :=
  ∀ row ∈ rows, ∀ s ∈ row, ∀ t ∈ row, ¬ lapping s t →
    ∀ c, ¬ (covers s c ∧ covers t c)

/-- Substring test (used to state which messages appear in an output). -/
def isSubstr (pat s : String) : Bool :=
  (List.range (s.length + 1)).any (fun k => pat.toList.isPrefixOf (s.toList.drop k))

/-- Concrete scenario data for the rendering claims. -/
def fileA : SourceFile := ⟨"a"⟩

/-- A one-letter message used by the no-location attachment scenario. -/
def plainMsg : String := "m"

def accLines : LineAcc := fun _ n => "L" ++ Nat.repr n

def accWords : LineAcc := fun _ _ => "word word word"

/-- Secondaries on lines 5 and 7 of one file, primary on line 4: gap of
exactly two. -/
def bridgeDiag : Diagnostic :=
  ((Error "msg" (mkLocation 4 0 1 (some fileA))).withNote "n5"
    (mkLocation 5 0 1 (some fileA))).withNote "n7" (mkLocation 7 0 1 (some fileA))

/-- Secondaries on lines 5 and 9 of one file, primary on line 4: larger
gap. -/
def gapDiag : Diagnostic :=
  ((Error "msg" (mkLocation 4 0 1 (some fileA))).withNote "n5"
    (mkLocation 5 0 1 (some fileA))).withNote "n9" (mkLocation 9 0 1 (some fileA))

/-- Three notes attached at one file-backed `Location`: the second becomes a
child of the first, the third a child of the second. -/
def nestDiag : Diagnostic :=
  (((Error "root" (mkLocation 4 0 1 (some fileA))).withNote "m1"
    (mkLocation 1 2 4 (some fileA))).withNote "m2"
    (mkLocation 1 2 4 (some fileA))).withNote "m3" (mkLocation 1 2 4 (some fileA))

/-- Drops all children of a diagnostic (spec-modelled pruning helper). -/
def clearSecs : Diagnostic → Diagnostic
  | .mk m sm l t c _ => .mk m sm l t c []

/-- Keeps a top-level secondary's direct children but deletes everything
below them (spec-modelled pruning helper). -/
def pruneChild : Diagnostic → Diagnostic
  | .mk m sm l t c kids => .mk m sm l t c (kids.map clearSecs)

/-- Keeps the top-level secondaries and their direct children, deleting all
deeper descendants (spec-modelled: the part of the tree claim C10 says the
renderer can see). -/
def pruneDeep : Diagnostic → Diagnostic
  | .mk m sm l t c secs => .mk m sm l t c (secs.map pruneChild)

/-- Scalar-field agreement between two diagnostics: everything `print`
reads of the primary except its secondaries list. -/
def SameScalars (a b : Diagnostic) : Prop :=
  a.msg = b.msg ∧ a.subMsg = b.subMsg ∧ a.loc = b.loc ∧ a.errTy = b.errTy ∧
    a.code = b.code

/-- A span is within the line the accessor yields for its position (and
nonempty, as construction guarantees). -/
def LocOK (acc : LineAcc) (x : Diagnostic) : Prop :=
  ∀ f, x.loc.file = some f →
    x.loc.start < x.loc.«end» ∧ x.loc.«end» ≤ (acc f x.loc.line).length

/-- Well-formedness of a diagnostic tree for an accessor: every span the
renderer underlines fits on its line, and every direct child of a top-level
secondary sits at its parent's `Location` (the invariant the attach-merge
rule maintains). -/
def WF (acc : LineAcc) (d : Diagnostic) : Prop :=
  LocOK acc d ∧ ∀ s ∈ d.secondaries, LocOK acc s ∧ ∀ c ∈ s.secondaries, c.loc = s.loc

/-- The per-line bound `printSecondariesOnLine` needs of every secondary in
a same-line run. -/
def SpanOK (line : String) (x : Diagnostic) : Prop :=
  x.loc.start < x.loc.«end» ∧ x.loc.«end» ≤ line.length ∧
    ∀ c ∈ x.secondaries, c.loc = x.loc

/-- The three overlapping spans of the stacking scenario, on line 2 of one
file, and a primary carrying them in an arbitrary initial order. -/
def spanA : Diagnostic := Note "s05" (mkLocation 2 0 5 (some fileA))

def spanB : Diagnostic := Note "s28" (mkLocation 2 2 8 (some fileA))

def spanC : Diagnostic := Note "s610" (mkLocation 2 6 10 (some fileA))

def spansDiag : Diagnostic :=
  Diagnostic.mk "root" "" (mkLocation 9 0 1 (some fileA)) .ERROR "" [spanB, spanA, spanC]

/-! ## Theorems -/

@[simp] theorem joinStrs_nil : joinStrs [] = "" := rfl

@[simp] theorem joinStrs_cons (s : String) (l : List String) :
    joinStrs (s :: l) = s ++ joinStrs l := rfl

@[simp] theorem Diagnostic.msg_mk (m sm l t c s) :
    (Diagnostic.mk m sm l t c s).msg = m := rfl

@[simp] theorem Diagnostic.subMsg_mk (m sm l t c s) :
    (Diagnostic.mk m sm l t c s).subMsg = sm := rfl

@[simp] theorem Diagnostic.loc_mk (m sm l t c s) :
    (Diagnostic.mk m sm l t c s).loc = l := rfl

@[simp] theorem Diagnostic.errTy_mk (m sm l t c s) :
    (Diagnostic.mk m sm l t c s).errTy = t := rfl

@[simp] theorem Diagnostic.code_mk (m sm l t c s) :
    (Diagnostic.mk m sm l t c s).code = c := rfl

@[simp] theorem Diagnostic.secondaries_mk (m sm l t c s) :
    (Diagnostic.mk m sm l t c s).secondaries = s := rfl

/-! ### The sort order realised as a lexicographic key -/

theorem SourceFile.path_injective {f g : SourceFile} (h : f.path = g.path) : f = g := by
  cases f; cases g; simpa using h

theorem secLT_iff_lt (file : Option SourceFile) (a b : Diagnostic) :
    secLT file a b = true ↔ sortKey file a < sortKey file b := by
  unfold secLT sortKey
  rcases ha : a.loc.file with _ | fa <;> rcases hb : b.loc.file with _ | fb <;>
    simp only [ha, hb]
  · simp [Prod.Lex.lt_iff]
  · split_ifs <;> simp [Prod.Lex.lt_iff]
  · split_ifs <;> simp [Prod.Lex.lt_iff]
  · by_cases hfa : (some fa : Option SourceFile) = file <;>
      by_cases hfb : (some fb : Option SourceFile) = file
    · have hf : fa = fb := by
        rw [← hfa] at hfb; exact (Option.some_inj.1 hfb).symm
      subst hf
      rw [if_neg (by tauto), if_neg (by tauto), if_neg (by tauto), if_pos hfa]
      by_cases hl : a.loc.line = b.loc.line
      · rw [if_pos hl]
        simp [Prod.Lex.lt_iff, hl, OrderDual.toDual_lt_toDual, Nat.lt_irrefl]
      · rw [if_neg hl]
        simp [Prod.Lex.lt_iff, hl]
    · rw [if_pos ⟨hfa, hfb⟩, if_pos hfa, if_neg hfb]
      simp [Prod.Lex.lt_iff]
    · rw [if_neg (by tauto), if_pos ⟨hfa, hfb⟩, if_neg hfa, if_pos hfb]
      simp [Prod.Lex.lt_iff]
    · rw [if_neg (by tauto), if_neg (by tauto), if_neg hfa, if_neg hfb]
      by_cases hff : fa = fb
      · subst hff
        rw [if_neg (by tauto)]
        by_cases hl : a.loc.line = b.loc.line
        · rw [if_pos hl]
          simp [Prod.Lex.lt_iff, hl, OrderDual.toDual_lt_toDual, Nat.lt_irrefl]
        · rw [if_neg hl]
          simp [Prod.Lex.lt_iff, hl]
      · rw [if_pos hff]
        have hpp : fa.path ≠ fb.path := fun h => hff (SourceFile.path_injective h)
        simp [Prod.Lex.lt_iff, hpp]

theorem secLE_iff_le (file : Option SourceFile) (a b : Diagnostic) :
    secLE file a b ↔ sortKey file a ≤ sortKey file b := by
  rw [secLE, ← Bool.not_eq_true, secLT_iff_lt, not_lt]

instance secLE_total (file : Option SourceFile) : IsTotal Diagnostic (secLE file) :=
  ⟨fun a b => by
    rw [secLE_iff_le, secLE_iff_le]
    exact le_total _ _⟩

instance secLE_trans (file : Option SourceFile) : IsTrans Diagnostic (secLE file) :=
  ⟨fun a b c hab hbc => by
    rw [secLE_iff_le] at *
    exact le_trans hab hbc⟩

theorem sortSecondaries_sorted (d : Diagnostic) :
    (d.sortSecondaries).secondaries.Sorted (secLE d.loc.file) := by
  cases d with
  | mk m sm l t c secs =>
    simpa [Diagnostic.sortSecondaries] using
      List.sorted_insertionSort (secLE l.file) secs

theorem sortSecondaries_idem (d : Diagnostic) :
    (d.sortSecondaries).sortSecondaries = d.sortSecondaries := by
  cases d with
  | mk m sm l t c secs =>
    simp only [Diagnostic.sortSecondaries]
    rw [List.Sorted.insertionSort_eq (List.sorted_insertionSort (secLE l.file) secs)]

/-! ### Claim C5 — the span clamp -/

/-- Claim C5, counterexample: at `start = 2^32 - 1` (a legal `uint32_t`
value) the clamp wraps, so `end` is neither `start + 1` nor above `start`. -/
theorem C5_counterexample :
    (mkLocation 0 (2 ^ 32 - 1) 0 none).«end» ≠ (2 ^ 32 - 1) + 1 ∧
    ¬ (2 ^ 32 - 1) < (mkLocation 0 (2 ^ 32 - 1) 0 none).«end» := by
  constructor
  · unfold mkLocation
    rw [if_pos (by omega)]
    show (2 ^ 32 - 1 + 1) % 2 ^ 32 ≠ 2 ^ 32 - 1 + 1
    omega
  · unfold mkLocation
    rw [if_pos (by omega)]
    show ¬ (2 ^ 32 - 1) < (2 ^ 32 - 1 + 1) % 2 ^ 32
    omega

/-- Claim C5 (amended): for every `uint32_t` start with `start + 1 < 2^32`,
constructing a `Location` with `end <= start` clamps `end` to
`(start + 1) mod 2^32`, and every constructed `Location` with such a start
satisfies `end > start`. -/
theorem C5_span_clamp (line start end_ : Nat) (file : Option SourceFile)
    (hs : start + 1 < 2 ^ 32) :
    (end_ ≤ start → (mkLocation line start end_ file).«end» = (start + 1) % 2 ^ 32) ∧
    start < (mkLocation line start end_ file).«end» := by
  unfold mkLocation
  constructor
  · intro h
    rw [if_pos h]
  · by_cases h : end_ ≤ start
    · rw [if_pos h]
      show start < (start + 1) % 2 ^ 32
      omega
    · rw [if_neg h]
      show start < end_
      omega

/-- Witness for `C5_span_clamp` at `line = 7`, `start = 3`, `end = 2`. -/
theorem C5_span_clamp_witness :
    3 + 1 < 2 ^ 32 ∧
    ((2 ≤ 3 → (mkLocation 7 3 2 none).«end» = (3 + 1) % 2 ^ 32) ∧
      3 < (mkLocation 7 3 2 none).«end») :=
  ⟨by omega, C5_span_clamp 7 3 2 none (by omega)⟩

/-! ### Claim C8 — the no-location sentinel -/

theorem noLocation_eq : noLocation = ⟨0, 0, 1, none⟩ := by
  unfold noLocation mkLocation
  rw [if_pos (by omega)]
  norm_num

/-- Claim C8, counterexample: the sentinel `Location{}` is clamped at
construction, so the secondary attached by the no-location `withNote`
carries `end = 1`, not `end = 0`. -/
theorem C8_counterexample :
    ((Error "e" noLocation).withNote' plainMsg).secondaries.map (fun s => s.loc) =
      [⟨0, 0, 1, none⟩] ∧ noLocation.«end» ≠ 0 := by
  constructor
  · rfl
  · rw [noLocation_eq]
    simp

/-- Claim C8 (amended): the no-location overloads `withNote(message)` and
`withHelp(message)` always append (never merge) a secondary whose `Location`
is the clamped sentinel: `line = 0`, `start = 0`, `end = 1`, null file. -/
theorem C8_sentinel (d : Diagnostic) (message : String) :
    (d.withNote' message).secondaries =
      d.secondaries ++ [Note message ⟨0, 0, 1, none⟩] ∧
    (d.withHelp' message).secondaries =
      d.secondaries ++ [Help message ⟨0, 0, 1, none⟩] := by
  cases d with
  | mk m sm l t c secs =>
    constructor
    · show ((Diagnostic.mk m sm l t c secs).withDiag
        (Note message noLocation)).secondaries = _
      rw [noLocation_eq]
      rw [Diagnostic.withDiag]
      rw [if_neg (by simp [Note])]
      rfl
    · show ((Diagnostic.mk m sm l t c secs).withDiag
        (Help message noLocation)).secondaries = _
      rw [noLocation_eq]
      rw [Diagnostic.withDiag]
      rw [if_neg (by simp [Help])]
      rfl

/-! ### Claim C3 — the total order on sorted secondaries -/

theorem secLE_claimOrder (file : Option SourceFile) (a b : Diagnostic)
    (h : secLE file a b) : claimOrder file a b := by
  rw [secLE_iff_le] at h
  refine ⟨?_, ?_, ?_, ?_⟩
  · intro haf
    rcases hbf : b.loc.file with _ | fb
    · rfl
    · exfalso
      simp only [sortKey, haf, hbf] at h
      rw [Prod.Lex.le_iff] at h
      rcases h with h | ⟨h, _⟩ <;> split_ifs at h <;> omega
  · rintro ⟨hbp, hbn⟩
    rcases hbf : b.loc.file with _ | fb
    · exact absurd hbf hbn
    rcases haf : a.loc.file with _ | fa
    · exfalso
      rw [hbf] at hbp
      simp only [sortKey, haf, hbf] at h
      rw [Prod.Lex.le_iff, if_pos hbp] at h
      rcases h with h | ⟨h, _⟩ <;> omega
    by_contra hap
    rw [hbf] at hbp
    simp only [sortKey, haf, hbf] at h
    rw [Prod.Lex.le_iff, if_pos hbp, if_neg hap] at h
    rcases h with h | ⟨h, _⟩ <;> omega
  · intro fa fb haf hbf hne hap hbp
    rw [haf] at hap
    rw [hbf] at hbp
    simp only [sortKey, haf, hbf] at h
    rw [if_neg hap, if_neg hbp, Prod.Lex.le_iff] at h
    rcases h with h | ⟨_, h⟩
    · omega
    · rw [Prod.Lex.le_iff] at h
      rcases h with h | ⟨hp, _⟩
      · exact h
      · exact absurd (SourceFile.path_injective hp) hne
  · intro f haf hbf
    simp only [sortKey, haf, hbf] at h
    rw [Prod.Lex.le_iff] at h
    rcases h with h | ⟨_, h⟩
    · omega
    · rw [Prod.Lex.le_iff] at h
      rcases h with h | ⟨_, h⟩
      · exact absurd h (lt_irrefl _)
      · rw [Prod.Lex.le_iff] at h
        rcases h with h | ⟨hl, h⟩
        · exact Or.inl h
        · exact Or.inr ⟨hl, OrderDual.toDual_le_toDual.1 h⟩

/-- Claim C3: after `sortSecondaries` the secondaries list is pairwise in
the promised order — file-backed before file-less, primary's file first,
other files by path ascending, and within one file ascending by line with
ties broken by descending start column. -/
theorem C3_sort_order (d : Diagnostic) :
    (d.sortSecondaries).secondaries.Pairwise (claimOrder d.loc.file) := by
  exact (sortSecondaries_sorted d).imp
    (fun {a b} hab => secLE_claimOrder _ a b hab)

/-! ### Claim C4 — idempotence of `print` -/

/-- Claim C4: printing twice with the same configuration and line accessor
produces byte-identical output — the only mutation `print` performs is the
deterministic sort of the secondaries, and sorting is idempotent. -/
theorem C4_print_idempotent (d : Diagnostic) (cfg : Config) (acc : LineAcc) :
    (((d.print cfg acc).1).print cfg acc).2.out = (d.print cfg acc).2.out := by
  by_cases hst : cfg.style = DisplayStyle.SHORT <;>
    simp [Diagnostic.print, hst, sortSecondaries_idem]

/-! ### Claim C2 — the attach-merge rule -/

mutual

theorem inTree_withDiag (y x : Diagnostic) : InTree x (y.withDiag x) := by
  cases y with
  | mk m sm l t c secs =>
    rw [Diagnostic.withDiag]
    by_cases hf : x.loc.file.isSome
    · rw [if_pos hf]
      rcases hal : attachList secs x with _ | secs'
      · exact InTree.child x x _ (by simp) (InTree.refl x)
      · rcases attachList_inTree secs x secs' hal with ⟨c, hc, hin⟩
        exact InTree.child x c _ (by simpa using hc) hin
    · rw [if_neg hf]
      exact InTree.child x x _ (by simp) (InTree.refl x)

theorem attachList_inTree (secs : List Diagnostic) (x : Diagnostic)
    (secs' : List Diagnostic) (h : attachList secs x = some secs') :
    ∃ c ∈ secs', InTree x c := by
  match secs with
  | [] => simp [attachList] at h
  | i :: rest =>
    rw [attachList] at h
    by_cases hl : i.loc = x.loc
    · rw [if_pos hl] at h
      refine ⟨i.withDiag x, ?_, inTree_withDiag i x⟩
      rw [← Option.some_inj.1 h]
      simp
    · rw [if_neg hl] at h
      rcases har : attachList rest x with _ | rest'
      · rw [har] at h
        simp at h
      · rw [har] at h
        rcases attachList_inTree rest x rest' har with ⟨c, hc, hin⟩
        refine ⟨c, ?_, hin⟩
        rw [← Option.some_inj.1 h]
        simp [hc]

end

theorem attachList_found (secs : List Diagnostic) (x : Diagnostic)
    (h : ∃ s ∈ secs, s.loc = x.loc) :
    ∃ j, j < secs.length ∧ (secs.getD j default).loc = x.loc ∧
      (∀ k < j, (secs.getD k default).loc ≠ x.loc) ∧
      attachList secs x =
        some (secs.set j ((secs.getD j default).withDiag x)) := by
  induction secs with
  | nil => simp at h
  | cons i rest ih =>
    by_cases hl : i.loc = x.loc
    · refine ⟨0, by simp, by simpa using hl, by omega, ?_⟩
      rw [attachList, if_pos hl]
      simp
    · have hrest : ∃ s ∈ rest, s.loc = x.loc := by
        rcases h with ⟨s, hs, hsl⟩
        rcases List.mem_cons.1 hs with rfl | hs'
        · exact absurd hsl hl
        · exact ⟨s, hs', hsl⟩
      rcases ih hrest with ⟨j, hj, hjl, hjk, hal⟩
      refine ⟨j + 1, by simpa using hj, by simpa using hjl, ?_, ?_⟩
      · intro k hk
        match k with
        | 0 => simpa using hl
        | k' + 1 =>
          have := hjk k' (by omega)
          simpa using this
      · rw [attachList, if_neg hl, hal]
        simp

/-- Claim C2, counterexample: after merging `m1` then `m2` at one `Location`
`L`, a third attach at `L` matches the top-level secondary `m1` but lands as
a child of `m2` (a grandchild of `m1`) — it is not made a direct child of
the matching top-level secondary, though the top-level count stays 1. -/
theorem C2_counterexample :
    (((((Error "root" (mkLocation 4 0 1 (some ⟨"a"⟩))).withNote "m1"
          (mkLocation 1 2 4 (some ⟨"a"⟩))).withNote "m2"
          (mkLocation 1 2 4 (some ⟨"a"⟩))).withNote "m3"
          (mkLocation 1 2 4 (some ⟨"a"⟩))).secondaries.map
        (fun s => (s.msg, s.secondaries.map
          (fun c => (c.msg, c.secondaries.map Diagnostic.msg))))) =
      [("m1", [("m2", ["m3"])])] := by
  rfl

/-- Claim C2 (amended): attaching a secondary whose `Location` has a file
and equals the `Location` of an existing top-level secondary merges it into
the subtree of the first such secondary (a descendant, which is a direct
child only when that subtree does not already contain the `Location`) and
leaves the top-level count unchanged; attaching with a file-less `Location`
always appends a new top-level secondary and never merges. -/
theorem C2_attach_merge (d x : Diagnostic) :
    (x.loc.file.isSome → (∃ s ∈ d.secondaries, s.loc = x.loc) →
      (d.withDiag x).secondaries.length = d.secondaries.length ∧
      ∃ j, j < d.secondaries.length ∧
        (d.secondaries.getD j default).loc = x.loc ∧
        (∀ k < j, (d.secondaries.getD k default).loc ≠ x.loc) ∧
        (d.withDiag x).secondaries =
          d.secondaries.set j ((d.secondaries.getD j default).withDiag x) ∧
        InTree x ((d.secondaries.getD j default).withDiag x)) ∧
    (x.loc.file = none →
      (d.withDiag x).secondaries = d.secondaries ++ [x]) ∧
    (∀ message location, d.withNote message location =
      d.withDiag (Note message location)) := by
  refine ⟨?_, ?_, fun _ _ => rfl⟩
  · intro hf hex
    cases d with
    | mk m sm l t c secs =>
      simp only [Diagnostic.secondaries_mk] at hex ⊢
      rcases attachList_found secs x hex with ⟨j, hj, hjl, hjk, hal⟩
      rw [Diagnostic.withDiag, if_pos hf, hal]
      exact ⟨by simp, j, hj, hjl, hjk, rfl, inTree_withDiag _ x⟩
  · intro hf
    cases d with
    | mk m sm l t c secs =>
      rw [Diagnostic.withDiag, if_neg (by simp [hf])]
      rfl

/-- Witness for `C2_attach_merge`: a concrete merge (hypotheses discharged)
and a concrete file-less append. -/
theorem C2_attach_merge_witness :
    ((Diagnostic.mk "r" "" (mkLocation 9 0 1 (some ⟨"a"⟩)) .ERROR ""
        [Note "m1" (mkLocation 1 2 4 (some ⟨"a"⟩))]).withDiag
      (Note "n" (mkLocation 1 2 4 (some ⟨"a"⟩)))).secondaries.length =
      (Diagnostic.mk "r" "" (mkLocation 9 0 1 (some ⟨"a"⟩)) .ERROR ""
        [Note "m1" (mkLocation 1 2 4 (some ⟨"a"⟩))]).secondaries.length ∧
    ((Diagnostic.mk "r" "" (mkLocation 9 0 1 (some ⟨"a"⟩)) .ERROR ""
        [Note "m1" (mkLocation 1 2 4 (some ⟨"a"⟩))]).withDiag
      (Note "nf" noLocation)).secondaries =
      (Diagnostic.mk "r" "" (mkLocation 9 0 1 (some ⟨"a"⟩)) .ERROR ""
        [Note "m1" (mkLocation 1 2 4 (some ⟨"a"⟩))]).secondaries ++
        [Note "nf" noLocation] := by
  have h1 := C2_attach_merge
    (Diagnostic.mk "r" "" (mkLocation 9 0 1 (some ⟨"a"⟩)) .ERROR ""
      [Note "m1" (mkLocation 1 2 4 (some ⟨"a"⟩))])
    (Note "n" (mkLocation 1 2 4 (some ⟨"a"⟩)))
  have h2 := C2_attach_merge
    (Diagnostic.mk "r" "" (mkLocation 9 0 1 (some ⟨"a"⟩)) .ERROR ""
      [Note "m1" (mkLocation 1 2 4 (some ⟨"a"⟩))])
    (Note "nf" noLocation)
  refine ⟨(h1.1 (by rfl) ⟨Note "m1" (mkLocation 1 2 4 (some ⟨"a"⟩)), by simp, rfl⟩).1,
    h2.2.1 ?_⟩
  rw [Note, Diagnostic.loc_mk, noLocation_eq]

/-! ### Claim C7 — the Short display style -/

theorem printShortSecondary_out (cfg : Config) (st : RS) (i : Diagnostic) :
    (printShortSecondary cfg st i).out = st.out ++ specShortLine cfg i := by
  rcases hf : i.loc.file with _ | f <;>
    simp [printShortSecondary, specShortLine, emit, Color.print, hf, theFile,
      String.append_assoc]

theorem shortFold_out (cfg : Config) (secs : List Diagnostic) : ∀ st : RS,
    (secs.foldl (printShortSecondary cfg) st).out =
      st.out ++ joinStrs (secs.map (specShortLine cfg)) := by
  induction secs with
  | nil => intro st; simp [String.append_empty]
  | cons x rest ih =>
    intro st
    simp [List.foldl_cons, ih, printShortSecondary_out, String.append_assoc]

theorem printShort_out (cfg : Config) (secs : List Diagnostic) (d : Diagnostic)
    (st : RS) :
    (printShort cfg secs d st).out =
      st.out ++ specShortLine cfg d ++ joinStrs (secs.map (specShortLine cfg)) := by
  rcases hf : d.loc.file with _ | f <;>
    simp [printShort, specShortLine, emit, Color.print, hf, theFile,
      shortFold_out, String.append_assoc]

theorem sortSecondaries_msg (d : Diagnostic) : (d.sortSecondaries).msg = d.msg := by
  cases d; rfl

theorem sortSecondaries_loc (d : Diagnostic) : (d.sortSecondaries).loc = d.loc := by
  cases d; rfl

theorem sortSecondaries_errTy (d : Diagnostic) :
    (d.sortSecondaries).errTy = d.errTy := by
  cases d; rfl

theorem sortSecondaries_code (d : Diagnostic) :
    (d.sortSecondaries).code = d.code := by
  cases d; rfl

theorem sortSecondaries_subMsg (d : Diagnostic) :
    (d.sortSecondaries).subMsg = d.subMsg := by
  cases d; rfl

theorem specShortLine_sort (cfg : Config) (d : Diagnostic) :
    specShortLine cfg (d.sortSecondaries) = specShortLine cfg d := by
  unfold specShortLine Diagnostic.tyToString
  rw [sortSecondaries_msg, sortSecondaries_loc, sortSecondaries_errTy,
    sortSecondaries_code]

/-- Claim C7: in Short style `print` emits exactly one line per diagnostic —
the primary first, then each secondary in sorted order — each of the form
`file:line:start:end: Severity(code): message` (prefix omitted without a
file, newlines replaced by the separator); in particular the
Error/Note/Help scenario at `a:4:9-13`, `a:1:0-8`, `b:1:0-8` prints exactly
those three lines in that order. -/
theorem C7_short_style :
    (∀ (d : Diagnostic) (cfg : Config) (acc : LineAcc), cfg.style = .SHORT →
      (d.print cfg acc).2.out =
        specShortLine cfg d ++
          joinStrs (((d.sortSecondaries).secondaries).map (specShortLine cfg))) ∧
    ((((Error "type mismatch" (mkLocation 4 9 13 (some ⟨"a"⟩))).withNote
        "declared here" (mkLocation 1 0 8 (some ⟨"a"⟩))).withHelp "see also"
        (mkLocation 1 0 8 (some ⟨"b"⟩))).print { style := .SHORT }
        (fun _ _ => "")).2.out =
      "a:4:9:13: Error: type mismatch\na:1:0:8: Note: declared here\nb:1:0:8: Help: see also\n" := by
  constructor
  · intro d cfg acc hst
    rw [Diagnostic.print]
    simp only [hst, if_pos]
    rw [printShort_out]
    rw [specShortLine_sort]
    rfl
  · rfl

/-- Witness for `C7_short_style`: its general conjunct applied at a concrete
diagnostic, configuration, and accessor. -/
theorem C7_short_style_witness :
    ((Error "e" noLocation).print { style := .SHORT } (fun _ _ => "")).2.out =
      specShortLine { style := .SHORT } (Error "e" noLocation) ++
        joinStrs ((((Error "e" noLocation).sortSecondaries).secondaries).map
          (specShortLine { style := .SHORT })) :=
  C7_short_style.1 (Error "e" noLocation) { style := .SHORT } (fun _ _ => "") rfl

/-! ### Claim C9 — bridge lines and ellipsis rows -/

theorem add32_eq (a b : Nat) (h : a + b < 2 ^ 32) : add32 a b = a + b := by
  unfold add32
  omega

theorem sub32_one (a : Nat) (h1 : 1 ≤ a) (h2 : a < 2 ^ 32) : sub32 a 1 = a - 1 := by
  unfold sub32
  omega

/-- Claim C9: when consecutively rendered lines differ by exactly 2 the
padding step emits the single intervening line verbatim with its number;
a larger gap emits one width-dependent ellipsis row instead.  The two
concrete renders (secondaries on lines 5 and 7, resp. 5 and 9, primary on
line 4) show the bridge line ` 6 │ L6` (and no ellipsis), resp. a single
ellipsis row and no rendering of lines 6, 7, 8. -/
theorem C9_gap_rendering :
    (∀ (cfg : Config) (d : Diagnostic) (acc : LineAcc)
      (maxLine lastLine currLine : Nat) (file : SourceFile) (st : RS),
      lastLine + 2 = currLine → currLine < 2 ^ 32 →
      (printPadding cfg d acc maxLine lastLine currLine file st).out =
        (printLeftWithLineNum cfg d (currLine - 1) maxLine true st).out ++
          acc file (currLine - 1) ++ "\n") ∧
    (∀ (cfg : Config) (d : Diagnostic) (acc : LineAcc)
      (maxLine lastLine currLine : Nat) (file : SourceFile) (st : RS),
      lastLine + 2 < currLine → currLine < 2 ^ 32 →
      (printPadding cfg d acc maxLine lastLine currLine file st).out =
        st.out ++ " " ++
          (if (Nat.repr maxLine).length + cfg.padding.beforeLineNum +
              cfg.padding.afterLineNum = 3 then "⋯"
            else if (Nat.repr maxLine).length + cfg.padding.beforeLineNum +
              cfg.padding.afterLineNum = 4 then "··" else "···") ++ "\n") ∧
    (splitLines (bridgeDiag.print {} accLines).2.out).contains " 6 │ L6" = true ∧
    (splitLines (bridgeDiag.print {} accLines).2.out).contains " ⋯" = false ∧
    ((splitLines (gapDiag.print {} accLines).2.out).filter
      (fun l => decide (l = " ⋯"))).length = 1 ∧
    (splitLines (gapDiag.print {} accLines).2.out).contains " 6 │ L6" = false ∧
    (splitLines (gapDiag.print {} accLines).2.out).contains " 7 │ L7" = false ∧
    (splitLines (gapDiag.print {} accLines).2.out).contains " 8 │ L8" = false := by
  refine ⟨?_, ?_, by rfl, by rfl, by rfl, by rfl, by rfl, by rfl⟩
  · intro cfg d acc maxLine lastLine currLine file st hgap hlt
    unfold printPadding
    rw [if_pos (by rw [add32_eq _ _ (by omega), hgap])]
    rw [sub32_one currLine (by omega) hlt]
    simp [emit, String.append_assoc]
  · intro cfg d acc maxLine lastLine currLine file st hgap hlt
    unfold printPadding
    rw [if_neg (by rw [add32_eq _ _ (by omega)]; omega)]
    rcases h3 : (Nat.repr maxLine).length + cfg.padding.beforeLineNum +
        cfg.padding.afterLineNum with _ | w
    · simp only [h3]
      rfl
    · rcases w with _ | w
      · simp only [h3]
        rfl
      · rcases w with _ | w
        · simp only [h3]
          rfl
        · rcases w with _ | w
          · simp only [h3]
            rfl
          · rcases w with _ | w
            · simp only [h3]
              rfl
            · simp only [h3]
              rfl

/-- Witness for `C9_gap_rendering`: both padding conjuncts applied at
concrete arguments. -/
theorem C9_gap_rendering_witness :
    (printPadding {} (Error "e" noLocation) accLines 9 5 7 fileA ⟨"", true⟩).out =
      (printLeftWithLineNum {} (Error "e" noLocation) 6 9 true ⟨"", true⟩).out ++
        accLines fileA 6 ++ "\n" ∧
    (printPadding {} (Error "e" noLocation) accLines 9 5 9 fileA ⟨"", true⟩).out =
      "" ++ " " ++
        (if (Nat.repr 9).length + (1 : Nat) + 1 = 3 then "⋯"
          else if (Nat.repr 9).length + (1 : Nat) + 1 = 4 then "··" else "···") ++
        "\n" := by
  constructor
  · exact C9_gap_rendering.1 {} (Error "e" noLocation) accLines 9 5 7 fileA
      ⟨"", true⟩ rfl (by omega)
  · exact C9_gap_rendering.2.1 {} (Error "e" noLocation) accLines 9 5 9 fileA
      ⟨"", true⟩ (by omega) (by omega)

/-! ### Claim C1 — overlap stacking -/

theorem perm_two {α : Type} {s : List α} {a b : α} (h : s.Perm [a, b]) :
    s = [a, b] ∨ s = [b, a] := by
  have hlen : s.length = 2 := by simpa using h.length_eq
  match s, hlen with
  | [x, y], _ =>
    have hx : x = a ∨ x = b := by simpa using h.mem_iff.1 (by simp : x ∈ [x, y])
    rcases hx with rfl | rfl
    · left
      have h2 : List.Perm [y] [b] := (List.perm_cons x).1 h
      rw [List.perm_singleton] at h2
      rw [h2]
    · right
      have h2 : List.Perm [y] [a] :=
        (List.perm_cons x).1 (h.trans (List.Perm.swap x a []))
      rw [List.perm_singleton] at h2
      rw [h2]

theorem perm_three {α : Type} {s : List α} {a b c : α} (h : s.Perm [a, b, c]) :
    s = [a, b, c] ∨ s = [a, c, b] ∨ s = [b, a, c] ∨ s = [b, c, a] ∨
      s = [c, a, b] ∨ s = [c, b, a] := by
  have hlen : s.length = 3 := by simpa using h.length_eq
  match s, hlen with
  | [x, y, z], _ =>
    have hx : x = a ∨ x = b ∨ x = c := by
      simpa using h.mem_iff.1 (by simp : x ∈ [x, y, z])
    rcases hx with rfl | rfl | rfl
    · have h2 : List.Perm [y, z] [b, c] := (List.perm_cons x).1 h
      rcases perm_two h2 with h' | h'
      · obtain ⟨rfl, rfl⟩ : y = b ∧ z = c := by simpa using h'
        tauto
      · obtain ⟨rfl, rfl⟩ : y = c ∧ z = b := by simpa using h'
        tauto
    · have h2 : List.Perm [y, z] [a, c] :=
        (List.perm_cons x).1 (h.trans (List.Perm.swap x a [c]))
      rcases perm_two h2 with h' | h'
      · obtain ⟨rfl, rfl⟩ : y = a ∧ z = c := by simpa using h'
        tauto
      · obtain ⟨rfl, rfl⟩ : y = c ∧ z = a := by simpa using h'
        tauto
    · have h2 : List.Perm [y, z] [a, b] := by
        refine (List.perm_cons x).1 (h.trans ?_)
        exact (List.Perm.cons a (List.Perm.swap x b [])).trans
          (List.Perm.swap x a [b])
      rcases perm_two h2 with h' | h'
      · obtain ⟨rfl, rfl⟩ : y = a ∧ z = b := by simpa using h'
        tauto
      · obtain ⟨rfl, rfl⟩ : y = b ∧ z = a := by simpa using h'
        tauto

theorem secLE_sameFile {pf : Option SourceFile} {a b : Diagnostic}
    {f : SourceFile} (ha : a.loc.file = some f) (hb : b.loc.file = some f)
    (hl : a.loc.line = b.loc.line) :
    secLE pf a b ↔ b.loc.start ≤ a.loc.start := by
  rw [secLE_iff_le]
  simp only [sortKey, ha, hb]
  by_cases hpf : (some f : Option SourceFile) = pf
  · rw [if_pos hpf]
    simp [Prod.Lex.le_iff, hl, OrderDual.toDual_le_toDual, lt_irrefl]
  · rw [if_neg hpf]
    simp [Prod.Lex.le_iff, hl, OrderDual.toDual_le_toDual, lt_irrefl]

theorem noRowCollision_all (rows : List (List Diagnostic)) :
    NoRowCollision rows := by
  intro row _ s _ t _ hnl c hc
  exact hnl ⟨lt_of_le_of_lt hc.1.1 hc.2.2, lt_of_le_of_lt hc.2.1 hc.1.2⟩

/-- Claim C1: for three file-backed secondaries on one line with column
ranges `[0,5)`, `[2,8)`, `[6,10)` (in any order), the sort places them in
descending start order and the stacking partition used by
`printSecondariesOnLine` puts them in three singleton depth rows — at least
two rows, with no same-row glyph collision between non-overlapping spans. -/
theorem C1_overlap_stacking (x1 x2 x3 : Diagnostic) (n : Nat) (f : SourceFile)
    (d : Diagnostic)
    (h1 : x1.loc = ⟨n, 0, 5, some f⟩) (h2 : x2.loc = ⟨n, 2, 8, some f⟩)
    (h3 : x3.loc = ⟨n, 6, 10, some f⟩)
    (hp : d.secondaries.Perm [x1, x2, x3]) :
    (d.sortSecondaries).secondaries = [x3, x2, x1] ∧
    buildRows ((d.sortSecondaries).secondaries.reverse) = [[x1], [x2], [x3]] ∧
    2 ≤ (buildRows ((d.sortSecondaries).secondaries.reverse)).length ∧
    NoRowCollision (buildRows ((d.sortSecondaries).secondaries.reverse)) := by
  have hsort : (d.sortSecondaries).secondaries = [x3, x2, x1] := by
    cases d with
    | mk m sm l t c secs =>
      simp only [Diagnostic.secondaries_mk] at hp
      simp only [Diagnostic.sortSecondaries, Diagnostic.secondaries_mk]
      have e21 : secLE l.file x2 x1 := by
        rw [secLE_sameFile (by rw [h2]) (by rw [h1]) (by rw [h2, h1])]
        rw [h2, h1]
        simp
      have e31 : secLE l.file x3 x1 := by
        rw [secLE_sameFile (by rw [h3]) (by rw [h1]) (by rw [h3, h1])]
        rw [h3, h1]
        simp
      have e32 : secLE l.file x3 x2 := by
        rw [secLE_sameFile (by rw [h3]) (by rw [h2]) (by rw [h3, h2])]
        rw [h3, h2]
        simp
      have n12 : ¬ secLE l.file x1 x2 := by
        rw [secLE_sameFile (by rw [h1]) (by rw [h2]) (by rw [h1, h2])]
        rw [h1, h2]
        simp
      have n13 : ¬ secLE l.file x1 x3 := by
        rw [secLE_sameFile (by rw [h1]) (by rw [h3]) (by rw [h1, h3])]
        rw [h1, h3]
        simp
      have n23 : ¬ secLE l.file x2 x3 := by
        rw [secLE_sameFile (by rw [h2]) (by rw [h3]) (by rw [h2, h3])]
        rw [h2, h3]
        simp
      rcases perm_three hp with hs | hs | hs | hs | hs | hs <;> rw [hs] <;>
        simp [List.insertionSort, List.orderedInsert, e21, e31, e32, n12, n13, n23]
  have hrows : buildRows ((d.sortSecondaries).secondaries.reverse) =
      [[x1], [x2], [x3]] := by
    rw [hsort]
    show buildRows [x1, x2, x3] = [[x1], [x2], [x3]]
    simp [buildRows, buildStep, clash, overlapsInner, descend, h1, h2, h3]
  exact ⟨hsort, hrows, by rw [hrows]; simp, noRowCollision_all _⟩

/-- Witness for `C1_overlap_stacking`: the three concrete spans attached to
a concrete primary in the order B, A, C. -/
theorem C1_overlap_stacking_witness :
    (spansDiag.sortSecondaries).secondaries = [spanC, spanB, spanA] ∧
    buildRows ((spansDiag.sortSecondaries).secondaries.reverse) =
      [[spanA], [spanB], [spanC]] ∧
    2 ≤ (buildRows ((spansDiag.sortSecondaries).secondaries.reverse)).length ∧
    NoRowCollision (buildRows ((spansDiag.sortSecondaries).secondaries.reverse)) :=
  C1_overlap_stacking spanA spanB spanC 2 fileA spansDiag rfl rfl rfl
    (List.Perm.swap spanA spanB [spanC])

/-! ### Claim C6 — render-state lemmas: output growth and the in-bounds flag -/

theorem emit_out (s : String) (st : RS) : (emit s st).out = st.out ++ s := rfl

theorem emit_ok (s : String) (st : RS) : (emit s st).ok = st.ok := rfl

theorem chk_out (b : Bool) (st : RS) : (chk b st).out = st.out := rfl

theorem chk_ok_true (b : Bool) (st : RS) (hb : b = true) : (chk b st).ok = st.ok := by
  simp [chk, hb]

theorem emit_len (s : String) (st : RS) :
    (emit s st).out.length = st.out.length + s.length := by
  simp [emit, String.length_append]

theorem foldl_ok {α : Type} (f : RS → α → RS) (l : List α)
    (h : ∀ x ∈ l, ∀ st : RS, (f st x).ok = st.ok) :
    ∀ st : RS, (l.foldl f st).ok = st.ok := by
  induction l with
  | nil => intro st; rfl
  | cons x xs ih =>
    intro st
    rw [List.foldl_cons]
    rw [ih (fun y hy st' => h y (List.mem_cons_of_mem x hy) st')]
    exact h x (List.mem_cons_self x xs) st

theorem foldl_len {α : Type} (f : RS → α → RS) (l : List α)
    (h : ∀ x ∈ l, ∀ st : RS, st.out.length ≤ (f st x).out.length) :
    ∀ st : RS, st.out.length ≤ (l.foldl f st).out.length := by
  induction l with
  | nil => intro st; exact le_refl _
  | cons x xs ih =>
    intro st
    exact le_trans (h x (List.mem_cons_self x xs) st)
      (ih (fun y hy st' => h y (List.mem_cons_of_mem x hy) st') (f st x))

theorem Color.print_ok (c : Color) (s : String) (st : RS) :
    (c.print s st).ok = st.ok := rfl

theorem Color.print_len (c : Color) (s : String) (st : RS) :
    st.out.length ≤ (c.print s st).out.length := by
  simp [Color.print, emit, String.length_append]

theorem indent_ok (cfg : Config) (line : String) (count start : Nat) (st : RS)
    (h : start + count ≤ line.length) : (indent cfg line count start st).ok = st.ok := by
  unfold indent
  refine foldl_ok _ _ (fun i hi st' => ?_) st
  rw [List.mem_range] at hi
  rw [emit_ok, chk_ok_true _ _ (by simp; omega)]

theorem indent_len (cfg : Config) (line : String) (count start : Nat) (st : RS) :
    st.out.length ≤ (indent cfg line count start st).out.length := by
  unfold indent
  refine foldl_len _ _ (fun i _ st' => ?_) st
  rw [emit_len, chk_out]
  omega

theorem printLine_ok (cfg : Config) (line : String) (st : RS) :
    (printLine cfg line st).ok = st.ok := by
  unfold printLine
  rw [emit_ok]
  exact foldl_ok _ _ (fun x _ st' => emit_ok _ _) st

theorem printLine_len (cfg : Config) (line : String) (st : RS) :
    st.out.length + 1 ≤ (printLine cfg line st).out.length := by
  unfold printLine
  rw [emit_len]
  have h := foldl_len (fun st (ic : Nat × Char) =>
    emit (if ic.2 = '\t' then spaces (tabWidth cfg ic.1) else charStr ic.2) st)
    line.toList.enum (fun x _ st' => by rw [emit_len]; omega) st
  have hn : ("\n" : String).length = 1 := rfl
  omega

theorem printLeft_ok (cfg : Config) (d : Diagnostic) (maxLine : Nat)
    (printBar : Bool) (st : RS) : (printLeft cfg d maxLine printBar st).ok = st.ok := by
  unfold printLeft
  cases printBar <;> simp [Color.print, emit]

theorem printLeft_len (cfg : Config) (d : Diagnostic) (maxLine : Nat)
    (printBar : Bool) (st : RS) :
    st.out.length ≤ (printLeft cfg d maxLine printBar st).out.length := by
  unfold printLeft
  cases printBar <;> simp [Color.print, emit, String.length_append] <;> omega

theorem printTop_ok (cfg : Config) (d : Diagnostic) (file : SourceFile)
    (maxLine : Nat) (st : RS) : (printTop cfg d file maxLine st).ok = st.ok := by
  unfold printTop
  rw [emit_ok, Color.print_ok, emit_ok, Color.print_ok, printLeft_ok]

theorem printTop_len (cfg : Config) (d : Diagnostic) (file : SourceFile)
    (maxLine : Nat) (st : RS) :
    st.out.length + 1 ≤ (printTop cfg d file maxLine st).out.length := by
  unfold printTop
  simp only [Color.print]
  rw [emit_len, emit_len, emit_len, emit_len]
  have h := printLeft_len cfg d maxLine false st
  have hn : ("\n" : String).length = 1 := rfl
  omega

theorem printBottom_ok (cfg : Config) (d : Diagnostic) (maxLine : Nat) (st : RS) :
    (printBottom cfg d maxLine st).ok = st.ok := by
  unfold printBottom
  rw [emit_ok, Color.print_ok]
  rw [foldl_ok _ _ (fun x _ st' => Color.print_ok _ _ _)]
  exact foldl_ok _ _ (fun x _ st' => by rw [emit_ok, printLeft_ok]) st

theorem printBottom_len (cfg : Config) (d : Diagnostic) (maxLine : Nat) (st : RS) :
    st.out.length + 1 ≤ (printBottom cfg d maxLine st).out.length := by
  unfold printBottom
  simp only [Color.print]
  rw [emit_len, emit_len]
  have h1 := foldl_len (fun st (_ : Nat) => emit "\n" (printLeft cfg d maxLine true st))
    (List.range cfg.padding.borderBottom)
    (fun _ _ st' => by
      have := printLeft_len cfg d maxLine true st'
      rw [emit_len]
      omega) st
  have h2 := foldl_len (fun st (_ : Nat) => emit (charStr cfg.chars.borderHorizontal) st)
    (List.range ((Nat.repr maxLine).length + cfg.padding.beforeLineNum +
      cfg.padding.afterLineNum))
    (fun _ _ st' => by rw [emit_len]; omega)
    (List.foldl (fun st (_ : Nat) => emit "\n" (printLeft cfg d maxLine true st)) st
      (List.range cfg.padding.borderBottom))
  have hn : ("\n" : String).length = 1 := rfl
  omega

theorem printLeftWithLineNum_ok (cfg : Config) (d : Diagnostic)
    (lineNum maxLine : Nat) (printBar : Bool) (st : RS) :
    (printLeftWithLineNum cfg d lineNum maxLine printBar st).ok = st.ok := by
  unfold printLeftWithLineNum
  cases printBar <;> simp [Color.print, emit]

theorem printLeftWithLineNum_len (cfg : Config) (d : Diagnostic)
    (lineNum maxLine : Nat) (printBar : Bool) (st : RS) :
    st.out.length ≤ (printLeftWithLineNum cfg d lineNum maxLine printBar st).out.length := by
  unfold printLeftWithLineNum
  cases printBar <;> simp [Color.print, emit, String.length_append] <;> omega

theorem printPadding_ok (cfg : Config) (d : Diagnostic) (acc : LineAcc)
    (maxLine lastLine currLine : Nat) (file : SourceFile) (st : RS) :
    (printPadding cfg d acc maxLine lastLine currLine file st).ok = st.ok := by
  unfold printPadding
  split_ifs
  · rw [emit_ok, printLeftWithLineNum_ok]
  · rw [emit_ok, Color.print_ok, emit_ok]

theorem printPadding_len (cfg : Config) (d : Diagnostic) (acc : LineAcc)
    (maxLine lastLine currLine : Nat) (file : SourceFile) (st : RS) :
    st.out.length ≤ (printPadding cfg d acc maxLine lastLine currLine file st).out.length := by
  unfold printPadding
  split_ifs
  · rw [emit_len]
    have := printLeftWithLineNum_len cfg d (sub32 currLine 1) maxLine true st
    omega
  · rw [emit_len]
    have h1 := emit_len " " st
    have h2 := Color.print_len (d.color cfg)
      (if (Nat.repr maxLine).length + cfg.padding.beforeLineNum +
        cfg.padding.afterLineNum = 3 then "⋯"
      else if (Nat.repr maxLine).length + cfg.padding.beforeLineNum +
        cfg.padding.afterLineNum = 4 then "··" else "···") (emit " " st)
    omega

theorem getD_mem {l : List Diagnostic} {i : Nat} (h : i < l.length) :
    l.getD i default ∈ l := by
  rw [List.getD_eq_getElem l default h]
  exact List.getElem_mem h

theorem onSameLine_refl (x : Diagnostic) : onSameLine x x = true := by
  simp [onSameLine]

theorem arrows_ok (cfg : Config) (d : Diagnostic) (line : String) (s e : Nat)
    (ch : Char) (st : RS) (h : e ≤ line.length) :
    (arrows cfg d line s e ch st).ok = st.ok := by
  unfold arrows
  refine foldl_ok _ _ (fun j hj st' => ?_) st
  rw [List.mem_range'] at hj
  have hj' : j < line.length := by omega
  split_ifs <;> rw [Color.print_ok, chk_ok_true _ _ (by simpa using hj')]

theorem arrows_len (cfg : Config) (d : Diagnostic) (line : String) (s e : Nat)
    (ch : Char) (st : RS) :
    st.out.length ≤ (arrows cfg d line s e ch st).out.length := by
  unfold arrows
  refine foldl_len _ _ (fun j _ st' => ?_) st
  split_ifs <;> simp [Color.print, emit, chk, String.length_append]

theorem ladderCol_ok (cfg : Config) (secs : List Diagnostic) (first : Diagnostic)
    (line : String) (t j : Nat) (st : RS) (h : j < line.length) :
    (ladderCol cfg secs first line t j st).ok = st.ok := by
  unfold ladderCol
  rcases connBar secs first t j with _ | dd
  · exact indent_ok cfg line 1 j st (by omega)
  · have hb : decide (j < line.length) = true := by simpa using h
    split_ifs
    · rw [emit_ok, Color.print_ok, chk_ok_true _ _ hb]
    · rw [Color.print_ok, chk_ok_true _ _ hb]

theorem ladderCol_len (cfg : Config) (secs : List Diagnostic) (first : Diagnostic)
    (line : String) (t j : Nat) (st : RS) :
    st.out.length ≤ (ladderCol cfg secs first line t j st).out.length := by
  unfold ladderCol
  rcases connBar secs first t j with _ | dd
  · exact indent_len cfg line 1 j st
  · split_ifs <;> simp [emit, Color.print, chk, String.length_append] <;> omega

theorem ladder_fst_ge (cfg : Config) (secs : List Diagnostic)
    (self first : Diagnostic) (line : String) (maxLine : Nat) :
    ∀ (fuel t : Nat) (st : RS),
      t ≤ (ladder cfg secs self first line maxLine fuel t st).1 := by
  intro fuel
  induction fuel with
  | zero => intro t st; exact le_refl _
  | succ f ih =>
    intro t st
    rw [ladder]
    split_ifs
    · exact le_trans (Nat.le_succ t) (ih (t + 1) _)
    · exact le_refl _

theorem ladder_fst_le (cfg : Config) (secs : List Diagnostic)
    (self first : Diagnostic) (line : String) (maxLine : Nat) :
    ∀ (fuel t : Nat) (st : RS), t ≤ secs.length →
      (ladder cfg secs self first line maxLine fuel t st).1 ≤ secs.length := by
  intro fuel
  induction fuel with
  | zero => intro t st ht; exact ht
  | succ f ih =>
    intro t st ht
    rw [ladder]
    split_ifs with hg
    · exact ih (t + 1) _ (by omega)
    · exact ht

theorem ladder_fst_lt (cfg : Config) (secs : List Diagnostic)
    (self first : Diagnostic) (line : String) (maxLine : Nat)
    (fuel t : Nat) (st : RS) (hfuel : 1 ≤ fuel) (ht : t < secs.length)
    (hsame : onSameLine (secs.getD t default) first = true) :
    t + 1 ≤ (ladder cfg secs self first line maxLine fuel t st).1 := by
  match fuel, hfuel with
  | f + 1, _ =>
    rw [ladder]
    rw [if_pos ⟨ht, hsame⟩]
    exact ladder_fst_ge cfg secs self first line maxLine f (t + 1) _

theorem ladder_ok (cfg : Config) (secs : List Diagnostic)
    (self first : Diagnostic) (line : String) (maxLine : Nat)
    (hs : ∀ x ∈ secs, onSameLine x first = true → SpanOK line x) :
    ∀ (fuel t : Nat) (st : RS), t ≤ secs.length →
      secs.length + 1 - t ≤ fuel →
      (ladder cfg secs self first line maxLine fuel t st).2.ok = st.ok := by
  intro fuel
  induction fuel with
  | zero => intro t st ht hf; exfalso; omega
  | succ f ih =>
    intro t st ht hf
    rw [ladder]
    split_ifs with hg
    · rcases hg with ⟨htl, hsame⟩
      have hcur := hs _ (getD_mem htl) hsame
      rw [ih (t + 1) _ (by omega) (by omega)]
      set cur := secs.getD t default with hc
      have hstart : cur.loc.start ≤ line.length := by
        rcases hcur with ⟨h1, h2, _⟩
        omega
      rw [foldl_ok _ _ (fun sec hsec st' => ?_)]
      rw [foldl_ok _ _ (fun il _ st' => ?_)]
      rw [foldl_ok _ _ (fun j hj st' => ?_), printLeft_ok]
      · exact ladderCol_ok cfg secs first line t j st'
          (by rw [List.mem_range] at hj; omega)
      · split_ifs
        · rw [emit_ok, Color.print_ok]
        · rw [emit_ok, Color.print_ok,
            foldl_ok _ _ (fun j hj st'' => ladderCol_ok cfg secs first line t j st''
              (by rw [List.mem_range] at hj; omega)), printLeft_ok]
      · have hsecl : sec.loc = cur.loc := hcur.2.2 sec hsec
        refine foldl_ok _ _ (fun il _ st'' => ?_) st'
        split_ifs
        · rw [emit_ok, Color.print_ok, Color.print_ok]
        · rw [emit_ok, Color.print_ok,
            foldl_ok _ _ (fun j hj st3 => ladderCol_ok cfg secs first line t j st3
              (by rw [List.mem_range] at hj; rw [hsecl] at hj; omega)), printLeft_ok]
    · rfl

theorem ladder_len (cfg : Config) (secs : List Diagnostic)
    (self first : Diagnostic) (line : String) (maxLine : Nat) :
    ∀ (fuel t : Nat) (st : RS),
      st.out.length ≤ (ladder cfg secs self first line maxLine fuel t st).2.out.length := by
  intro fuel
  induction fuel with
  | zero => intro t st; exact le_refl _
  | succ f ih =>
    intro t st
    rw [ladder]
    split_ifs
    · refine le_trans ?_ (ih (t + 1) _)
      refine le_trans ?_ (foldl_len _ _ (fun sec _ st' => ?_) _)
      · refine le_trans ?_ (foldl_len _ _ (fun il _ st' => ?_) _)
        · refine le_trans ?_ (foldl_len _ _ (fun j _ st' =>
            ladderCol_len cfg secs first line t j st') _)
          exact printLeft_len cfg self maxLine true st
        · split_ifs
          · simp [emit, Color.print, String.length_append] <;> omega
          · have h1 := printLeft_len cfg self maxLine true st'
            have h2 := foldl_len (fun st j => ladderCol cfg secs first line t j st)
              (List.range (secs.getD t default).loc.start)
              (fun j _ st'' => ladderCol_len cfg secs first line t j st'')
              (printLeft cfg self maxLine true st')
            simp only [emit, Color.print, String.length_append]
            omega
      · refine foldl_len _ _ (fun il _ st'' => ?_) st'
        split_ifs
        · simp [emit, Color.print, String.length_append] <;> omega
        · have h1 := printLeft_len cfg self maxLine true st''
          have h2 := foldl_len (fun st j => ladderCol cfg secs first line t j st)
            (List.range sec.loc.start)
            (fun j _ st3 => ladderCol_len cfg secs first line t j st3)
            (printLeft cfg self maxLine true st'')
          simp only [emit, Color.print, String.length_append]
          omega
    · exact le_refl _

theorem renderRowCol_ok (cfg : Config) (rows : List (List Diagnostic)) (j : Nat)
    (line : String) (st : RS) (lineIdx : Nat) :
    (renderRowCol cfg rows j line st lineIdx).ok = st.ok := by
  simp only [renderRowCol]
  split_ifs
  · rcases hfc : findConn rows lineIdx j with _ | dd <;> simp only [hfc] <;> rfl
  · rcases hgl : ((rows.getD j []).filter
        (fun c => decide (c.loc.start ≤ lineIdx ∧ lineIdx < c.loc.«end»))).getLast?
      with _ | dd <;> simp only [hgl] <;> rfl

theorem renderRowCol_len (cfg : Config) (rows : List (List Diagnostic)) (j : Nat)
    (line : String) (st : RS) (lineIdx : Nat) :
    st.out.length ≤ (renderRowCol cfg rows j line st lineIdx).out.length := by
  simp only [renderRowCol]
  split_ifs
  · rcases hfc : findConn rows lineIdx j with _ | dd <;> simp only [hfc] <;>
      simp [Color.print, emit, String.length_append]
  · rcases hgl : ((rows.getD j []).filter
        (fun c => decide (c.loc.start ≤ lineIdx ∧ lineIdx < c.loc.«end»))).getLast?
      with _ | dd <;> simp only [hgl] <;>
      simp [Color.print, emit, String.length_append]

theorem renderRows_ok (cfg : Config) (self : Diagnostic)
    (rows : List (List Diagnostic)) (line : String) (maxLine : Nat) (st : RS) :
    (renderRows cfg self rows line maxLine st).ok = st.ok := by
  unfold renderRows
  refine foldl_ok _ _ (fun j _ st' => ?_) st
  rw [foldl_ok _ _ (fun lineIdx _ st'' => renderRowCol_ok cfg rows j line st'' lineIdx)]
  split_ifs
  · rw [printLeft_ok, emit_ok]
  · rfl

theorem renderRows_len (cfg : Config) (self : Diagnostic)
    (rows : List (List Diagnostic)) (line : String) (maxLine : Nat) (st : RS) :
    st.out.length ≤ (renderRows cfg self rows line maxLine st).out.length := by
  unfold renderRows
  refine foldl_len _ _ (fun j _ st' => ?_) st
  refine le_trans ?_ (foldl_len _ _ (fun lineIdx _ st'' =>
    renderRowCol_len cfg rows j line st'' lineIdx) _)
  split_ifs
  · refine le_trans ?_ (printLeft_len cfg self maxLine true _)
    rw [emit_len]
    omega
  · exact le_refl _

theorem onSameLine_eq {x y : Diagnostic} (h : onSameLine x y = true) :
    x.loc.file = y.loc.file ∧ x.loc.line = y.loc.line := by
  simpa [onSameLine] using h

theorem psol_ok (cfg : Config) (secs : List Diagnostic) (self : Diagnostic)
    (line : String) (i maxLine : Nat) (shown : Bool) (st : RS)
    (hi : i < secs.length)
    (hs : ∀ x ∈ secs, onSameLine x (secs.getD i default) = true → SpanOK line x) :
    (printSecondariesOnLine cfg secs self line i maxLine shown st).2.ok = st.ok := by
  have hfirst : SpanOK line (secs.getD i default) :=
    hs _ (getD_mem hi) (onSameLine_refl _)
  rcases hfirst with ⟨hf1, hf2, hf3⟩
  simp only [printSecondariesOnLine]
  split_ifs with h1 h2
  · rfl
  · rw [foldl_ok _ _ (fun sec hsec st' => ?_)]
    rw [foldl_ok _ _ (fun il _ st' => ?_)]
    rw [foldl_ok _ _ (fun idx hidx st' => ?_)]
    rw [indent_ok cfg line _ 0 _ (by omega), printLeft_ok]
    · rw [Color.print_ok, chk_ok_true _ _ ?_]
      rw [List.mem_range'] at hidx
      simp
      omega
    · split_ifs
      · rw [emit_ok, Color.print_ok, emit_ok, indent_ok cfg line _ 0 _ (by omega),
          printLeft_ok]
      · rw [emit_ok, Color.print_ok, emit_ok]
    · have hsl : sec.loc = (secs.getD i default).loc := hf3 sec hsec
      refine foldl_ok _ _ (fun il _ st'' => ?_) st'
      split_ifs
      · rw [emit_ok, Color.print_ok, emit_ok,
          indent_ok cfg line _ 0 _ (by rw [hsl]; omega), printLeft_ok]
      · rw [emit_ok, Color.print_ok, emit_ok]
  · rw [ladder_ok cfg secs self _ line maxLine hs _ i _ (by omega) (by omega)]
    rw [emit_ok, renderRows_ok, printLeft_ok]

theorem psol_fst_lt (cfg : Config) (secs : List Diagnostic) (self : Diagnostic)
    (line : String) (i maxLine : Nat) (shown : Bool) (st : RS)
    (hi : i < secs.length) :
    i + 1 ≤ (printSecondariesOnLine cfg secs self line i maxLine shown st).1 := by
  simp only [printSecondariesOnLine]
  split_ifs
  · exact le_refl _
  · exact le_refl _
  · exact ladder_fst_lt cfg secs self _ line maxLine _ i _ (by omega) hi
      (onSameLine_refl _)

theorem psol_fst_le (cfg : Config) (secs : List Diagnostic) (self : Diagnostic)
    (line : String) (i maxLine : Nat) (shown : Bool) (st : RS)
    (hi : i < secs.length) :
    (printSecondariesOnLine cfg secs self line i maxLine shown st).1 ≤ secs.length := by
  simp only [printSecondariesOnLine]
  split_ifs
  · omega
  · omega
  · exact ladder_fst_le cfg secs self _ line maxLine _ i _ (by omega)

theorem psol_len (cfg : Config) (secs : List Diagnostic) (self : Diagnostic)
    (line : String) (i maxLine : Nat) (shown : Bool) (st : RS) :
    st.out.length ≤
      (printSecondariesOnLine cfg secs self line i maxLine shown st).2.out.length := by
  simp only [printSecondariesOnLine]
  split_ifs
  · exact le_refl _
  · refine le_trans ?_ (foldl_len _ _ (fun sec _ st' => ?_) _)
    · refine le_trans ?_ (foldl_len _ _ (fun il _ st' => ?_) _)
      · refine le_trans ?_ (foldl_len _ _ (fun idx _ st' => ?_) _)
        · exact le_trans (printLeft_len cfg self maxLine true st)
            (indent_len cfg line _ 0 _)
        · rw [Color.print, emit_len, chk_out]
          omega
      · split_ifs
        · have h1 := printLeft_len cfg self maxLine true st'
          have h2 := indent_len cfg line ((secs.getD i default).loc.«end») 0
            (printLeft cfg self maxLine true st')
          simp only [emit, Color.print, String.length_append]
          omega
        · simp only [emit, Color.print, String.length_append]
          omega
    · refine foldl_len _ _ (fun il _ st'' => ?_) st'
      split_ifs
      · have h1 := printLeft_len cfg self maxLine true st''
        have h2 := indent_len cfg line sec.loc.«end» 0
          (printLeft cfg self maxLine true st'')
        simp only [emit, Color.print, String.length_append]
        omega
      · simp only [emit, Color.print, String.length_append]
        omega
  · refine le_trans ?_ (ladder_len cfg secs self _ line maxLine _ i _)
    rw [emit_len]
    have h1 := printLeft_len cfg self maxLine true st
    have h2 := renderRows_len cfg self
      (buildRows (((secs.drop i).take
        (scanSameLine secs (secs.getD i default) (secs.length + 1) i - i)).reverse))
      line maxLine (printLeft cfg self maxLine true st)
    omega

theorem theFile_some (f : SourceFile) : theFile (some f) = f := rfl

theorem printRich1_ok (cfg : Config) (acc : LineAcc) (secs : List Diagnostic)
    (d : Diagnostic) (maxLine : Nat) (printAbove : Bool) (f : SourceFile)
    (hdf : d.loc.file = some f)
    (hsecs : ∀ s ∈ secs, LocOK acc s ∧ ∀ c ∈ s.secondaries, c.loc = s.loc) :
    ∀ (fuel i lastLine : Nat) (st : RS), i ≤ secs.length →
      secs.length + 1 - i ≤ fuel →
      (printRich1 cfg acc secs d maxLine printAbove fuel i lastLine st).2.2.ok =
        st.ok := by
  intro fuel
  induction fuel with
  | zero => intro i lastLine st hi hf; exfalso; omega
  | succ fu ih =>
    intro i lastLine st hi hf
    simp only [printRich1]
    by_cases hg : i < secs.length ∧ (secs.getD i default).loc.file = d.loc.file ∧
      (secs.getD i default).loc.line < d.loc.line
    · rw [if_pos hg]
      obtain ⟨hil, hfile, -⟩ := hg
      have hs : ∀ x ∈ secs, onSameLine x (secs.getD i default) = true →
          SpanOK (acc (theFile d.loc.file) (secs.getD i default).loc.line) x := by
        intro x hx hsame
        rcases onSameLine_eq hsame with ⟨he1, he2⟩
        have hxf : x.loc.file = some f := by rw [he1, hfile, hdf]
        rcases (hsecs x hx).1 f hxf with ⟨hlt, hle⟩
        refine ⟨hlt, ?_, (hsecs x hx).2⟩
        rw [hdf, theFile_some, ← he2]
        exact hle
      have key : ∀ st' : RS,
          (printRich1 cfg acc secs d maxLine printAbove fu
            (printSecondariesOnLine cfg secs d
              (acc (theFile d.loc.file) (secs.getD i default).loc.line) i maxLine
              printAbove st').1
            (secs.getD i default).loc.line
            (printSecondariesOnLine cfg secs d
              (acc (theFile d.loc.file) (secs.getD i default).loc.line) i maxLine
              printAbove st').2).2.2.ok = st'.ok := by
        intro st'
        have hlt := psol_fst_lt cfg secs d
          (acc (theFile d.loc.file) (secs.getD i default).loc.line) i maxLine
          printAbove st' hil
        have hle := psol_fst_le cfg secs d
          (acc (theFile d.loc.file) (secs.getD i default).loc.line) i maxLine
          printAbove st' hil
        rw [ih _ _ _ hle (by omega)]
        exact psol_ok cfg secs d _ i maxLine printAbove st' hil hs
      split_ifs with hc1 hc2
      · rw [key, printLine_ok, printLeftWithLineNum_ok, emit_ok, printLeft_ok]
      · rw [key, printLine_ok, printLeftWithLineNum_ok, printPadding_ok]
      · rw [key, printLine_ok, printLeftWithLineNum_ok]
    · rw [if_neg hg]

theorem printRich1_fst_le (cfg : Config) (acc : LineAcc) (secs : List Diagnostic)
    (d : Diagnostic) (maxLine : Nat) (printAbove : Bool) :
    ∀ (fuel i lastLine : Nat) (st : RS), i ≤ secs.length →
      (printRich1 cfg acc secs d maxLine printAbove fuel i lastLine st).1 ≤
        secs.length := by
  intro fuel
  induction fuel with
  | zero => intro i lastLine st hi; exact hi
  | succ fu ih =>
    intro i lastLine st hi
    simp only [printRich1]
    by_cases hg : i < secs.length ∧ (secs.getD i default).loc.file = d.loc.file ∧
      (secs.getD i default).loc.line < d.loc.line
    · rw [if_pos hg]
      split_ifs <;>
        exact ih _ _ _ (psol_fst_le cfg secs d _ i maxLine printAbove _ hg.1)
    · rw [if_neg hg]
      exact hi

theorem printRich1_len (cfg : Config) (acc : LineAcc) (secs : List Diagnostic)
    (d : Diagnostic) (maxLine : Nat) (printAbove : Bool) :
    ∀ (fuel i lastLine : Nat) (st : RS),
      st.out.length ≤
        (printRich1 cfg acc secs d maxLine printAbove fuel i lastLine st).2.2.out.length := by
  intro fuel
  induction fuel with
  | zero => intro i lastLine st; exact le_refl _
  | succ fu ih =>
    intro i lastLine st
    simp only [printRich1]
    by_cases hg : i < secs.length ∧ (secs.getD i default).loc.file = d.loc.file ∧
      (secs.getD i default).loc.line < d.loc.line
    · rw [if_pos hg]
      have key : ∀ st' : RS, st'.out.length ≤
          (printRich1 cfg acc secs d maxLine printAbove fu
            (printSecondariesOnLine cfg secs d
              (acc (theFile d.loc.file) (secs.getD i default).loc.line) i maxLine
              printAbove st').1
            (secs.getD i default).loc.line
            (printSecondariesOnLine cfg secs d
              (acc (theFile d.loc.file) (secs.getD i default).loc.line) i maxLine
              printAbove st').2).2.2.out.length := by
        intro st'
        exact le_trans (psol_len cfg secs d _ i maxLine printAbove st') (ih _ _ _)
      split_ifs
      · refine le_trans ?_ (key _)
        have h1 := printLeft_len cfg d maxLine true st
        have h2 := emit_len "\n" (printLeft cfg d maxLine true st)
        have h3 := printLeftWithLineNum_len cfg d (secs.getD i default).loc.line
          maxLine true (emit "\n" (printLeft cfg d maxLine true st))
        have h4 := printLine_len cfg
          (acc (theFile d.loc.file) (secs.getD i default).loc.line)
          (printLeftWithLineNum cfg d (secs.getD i default).loc.line maxLine true
            (emit "\n" (printLeft cfg d maxLine true st)))
        omega
      · refine le_trans ?_ (key _)
        have h1 := printPadding_len cfg d acc maxLine lastLine
          (secs.getD i default).loc.line (theFile (secs.getD i default).loc.file) st
        have h2 := printLeftWithLineNum_len cfg d (secs.getD i default).loc.line
          maxLine true (printPadding cfg d acc maxLine lastLine
            (secs.getD i default).loc.line (theFile (secs.getD i default).loc.file) st)
        have h3 := printLine_len cfg
          (acc (theFile d.loc.file) (secs.getD i default).loc.line)
          (printLeftWithLineNum cfg d (secs.getD i default).loc.line maxLine true
            (printPadding cfg d acc maxLine lastLine
              (secs.getD i default).loc.line
              (theFile (secs.getD i default).loc.file) st))
        omega
      · refine le_trans ?_ (key _)
        have h1 := printLeftWithLineNum_len cfg d (secs.getD i default).loc.line
          maxLine true st
        have h2 := printLine_len cfg
          (acc (theFile d.loc.file) (secs.getD i default).loc.line)
          (printLeftWithLineNum cfg d (secs.getD i default).loc.line maxLine true st)
        omega
    · rw [if_neg hg]

theorem printRich2_ok (cfg : Config) (acc : LineAcc) (secs : List Diagnostic)
    (d : Diagnostic) (maxLine : Nat) (printAbove : Bool)
    (hsecs : ∀ s ∈ secs, LocOK acc s ∧ ∀ c ∈ s.secondaries, c.loc = s.loc) :
    ∀ (fuel i lastLine : Nat) (currFile : Option SourceFile) (st : RS),
      i ≤ secs.length → secs.length + 1 - i ≤ fuel →
      (printRich2 cfg acc secs d maxLine printAbove fuel i lastLine
        currFile st).2.2.ok = st.ok := by
  intro fuel
  induction fuel with
  | zero => intro i lastLine currFile st hi hf; exfalso; omega
  | succ fu ih =>
    intro i lastLine currFile st hi hf
    by_cases hg : i < secs.length ∧ (secs.getD i default).loc.file.isSome = true
    · obtain ⟨hil, hfs⟩ := hg
      obtain ⟨sf, hsf⟩ := Option.isSome_iff_exists.mp hfs
      have hs : ∀ x ∈ secs, onSameLine x (secs.getD i default) = true →
          SpanOK (acc sf (secs.getD i default).loc.line) x := by
        intro x hx hsame
        rcases onSameLine_eq hsame with ⟨he1, he2⟩
        have hxf : x.loc.file = some sf := by rw [he1, hsf]
        rcases (hsecs x hx).1 sf hxf with ⟨hlt, hle⟩
        refine ⟨hlt, ?_, (hsecs x hx).2⟩
        rw [← he2]
        exact hle
      have key : ∀ (cf : Option SourceFile) (st' : RS), theFile cf = sf →
          (printRich2 cfg acc secs d maxLine printAbove fu
            (printSecondariesOnLine cfg secs d
              (acc (theFile cf) (secs.getD i default).loc.line) i maxLine
              printAbove st').1
            (secs.getD i default).loc.line cf
            (printSecondariesOnLine cfg secs d
              (acc (theFile cf) (secs.getD i default).loc.line) i maxLine
              printAbove st').2).2.2.ok = st'.ok := by
        intro cf st' htf
        have hlt := psol_fst_lt cfg secs d
          (acc (theFile cf) (secs.getD i default).loc.line) i maxLine
          printAbove st' hil
        have hle := psol_fst_le cfg secs d
          (acc (theFile cf) (secs.getD i default).loc.line) i maxLine
          printAbove st' hil
        rw [ih _ _ _ _ hle (by omega)]
        refine psol_ok cfg secs d _ i maxLine printAbove st' hil ?_
        rw [htf]
        exact hs
      by_cases hc1 : currFile = none ∨
          (theFile (secs.getD i default).loc.file).path ≠ (theFile currFile).path
      · simp only [printRich2, if_pos (And.intro hil hfs), if_pos hc1]
        have htf : theFile ((secs.getD i default).loc.file) = sf := by
          rw [hsf]; rfl
        rw [key _ _ htf, printLine_ok, printLeftWithLineNum_ok,
          foldl_ok _ _ (fun k _ st' => by rw [emit_ok, printLeft_ok])]
        split_ifs
        · rw [printTop_ok, printBottom_ok]
        · rw [printTop_ok]
      · obtain ⟨hne, hpath⟩ := not_or.mp hc1
        rw [not_ne_iff] at hpath
        have htf : theFile currFile = sf := by
          refine SourceFile.path_injective ?_
          rw [← hpath, hsf]
          rfl
        by_cases hc2 : lastLine < sub32 (secs.getD i default).loc.line 1
        · simp only [printRich2, if_pos (And.intro hil hfs), if_neg hc1,
            if_pos hc2]
          rw [key _ _ htf, printLine_ok, printLeftWithLineNum_ok,
            printPadding_ok]
        · simp only [printRich2, if_pos (And.intro hil hfs), if_neg hc1,
            if_neg hc2]
          rw [key _ _ htf, printLine_ok, printLeftWithLineNum_ok]
    · simp only [printRich2, if_neg hg]

theorem printRich2_len (cfg : Config) (acc : LineAcc) (secs : List Diagnostic)
    (d : Diagnostic) (maxLine : Nat) (printAbove : Bool) :
    ∀ (fuel i lastLine : Nat) (currFile : Option SourceFile) (st : RS),
      st.out.length ≤
        (printRich2 cfg acc secs d maxLine printAbove fuel i lastLine
          currFile st).2.2.out.length := by
  intro fuel
  induction fuel with
  | zero => intro i lastLine currFile st; exact le_refl _
  | succ fu ih =>
    intro i lastLine currFile st
    by_cases hg : i < secs.length ∧ (secs.getD i default).loc.file.isSome = true
    · have key : ∀ (cf : Option SourceFile) (st' : RS), st'.out.length ≤
          (printRich2 cfg acc secs d maxLine printAbove fu
            (printSecondariesOnLine cfg secs d
              (acc (theFile cf) (secs.getD i default).loc.line) i maxLine
              printAbove st').1
            (secs.getD i default).loc.line cf
            (printSecondariesOnLine cfg secs d
              (acc (theFile cf) (secs.getD i default).loc.line) i maxLine
              printAbove st').2).2.2.out.length := by
        intro cf st'
        exact le_trans (psol_len cfg secs d _ i maxLine printAbove st')
          (ih _ _ _ _)
      by_cases hc1 : currFile = none ∨
          (theFile (secs.getD i default).loc.file).path ≠ (theFile currFile).path
      · simp only [printRich2, if_pos hg, if_pos hc1]
        refine le_trans ?_ (key _ _)
        refine le_trans ?_ (Nat.le_of_succ_le (printLine_len _ _ _))
        refine le_trans ?_ (printLeftWithLineNum_len _ _ _ _ _ _)
        refine le_trans ?_ (foldl_len _ _ (fun k _ st' => ?_) _)
        · refine le_trans ?_ (Nat.le_of_succ_le (printTop_len _ _ _ _ _))
          split_ifs
          · exact Nat.le_of_succ_le (printBottom_len _ _ _ _)
          · exact le_refl _
        · rw [emit_len]
          have h := printLeft_len cfg d maxLine true st'
          omega
      · by_cases hc2 : lastLine < sub32 (secs.getD i default).loc.line 1
        · simp only [printRich2, if_pos hg, if_neg hc1, if_pos hc2]
          refine le_trans ?_ (key _ _)
          refine le_trans ?_ (Nat.le_of_succ_le (printLine_len _ _ _))
          refine le_trans ?_ (printLeftWithLineNum_len _ _ _ _ _ _)
          exact printPadding_len _ _ _ _ _ _ _ _
        · simp only [printRich2, if_pos hg, if_neg hc1, if_neg hc2]
          refine le_trans ?_ (key _ _)
          refine le_trans ?_ (Nat.le_of_succ_le (printLine_len _ _ _))
          exact printLeftWithLineNum_len _ _ _ _ _ _
    · simp only [printRich2, if_neg hg]
      exact le_refl _

theorem printAfter_ok (cfg : Config) (acc : LineAcc) (secs : List Diagnostic)
    (d : Diagnostic) (maxLine : Nat) (printAbove : Bool) (i lastLine : Nat)
    (currFile : Option SourceFile) (st : RS) (hi : i ≤ secs.length)
    (hsecs : ∀ s ∈ secs, LocOK acc s ∧ ∀ c ∈ s.secondaries, c.loc = s.loc) :
    (printAfter cfg acc secs d maxLine printAbove i lastLine currFile st).ok =
      st.ok := by
  simp only [printAfter]
  rw [foldl_ok _ _ (fun sec _ st' => by
    rw [foldl_ok _ _ (fun il _ st'' => by
      rw [printLine_ok]
      split_ifs
      · rw [emit_ok, printLeft_ok]
      · rfl), Color.print_ok, printLeft_ok])]
  split_ifs
  · rw [printBottom_ok]
    exact printRich2_ok cfg acc secs d maxLine printAbove hsecs _ i lastLine
      currFile st hi (by omega)
  · exact printRich2_ok cfg acc secs d maxLine printAbove hsecs _ i lastLine
      currFile st hi (by omega)

theorem printAfter_len (cfg : Config) (acc : LineAcc) (secs : List Diagnostic)
    (d : Diagnostic) (maxLine : Nat) (printAbove : Bool) (i lastLine : Nat)
    (currFile : Option SourceFile) (st : RS) :
    st.out.length ≤
      (printAfter cfg acc secs d maxLine printAbove i lastLine currFile
        st).out.length := by
  simp only [printAfter]
  refine le_trans ?_ (foldl_len _ _ (fun sec _ st' => ?_) _)
  · split_ifs
    · exact le_trans (printRich2_len cfg acc secs d maxLine printAbove _ _ _ _ _)
        (Nat.le_of_succ_le (printBottom_len _ _ _ _))
    · exact printRich2_len cfg acc secs d maxLine printAbove _ _ _ _ _
  · refine le_trans ?_ (foldl_len _ _ (fun il _ st'' => ?_) _)
    · exact le_trans (printLeft_len _ _ _ _ _) (Color.print_len _ _ _)
    · refine le_trans ?_ (Nat.le_of_succ_le (printLine_len _ _ _))
      split_ifs
      · rw [emit_len]
        have h := printLeft_len cfg d maxLine false st''
        omega
      · exact le_refl _

theorem printShort_ok (cfg : Config) (secs : List Diagnostic) (d : Diagnostic)
    (st : RS) : (printShort cfg secs d st).ok = st.ok := by
  simp only [printShort]
  rw [foldl_ok _ _ (fun sec _ st' => by
    simp only [printShortSecondary]
    rw [emit_ok, Color.print_ok]
    split_ifs
    · rw [emit_ok]
    · rfl)]
  rw [emit_ok, Color.print_ok, Color.print_ok]
  split_ifs
  · rw [emit_ok]
  · rfl

theorem printShort_len1 (cfg : Config) (secs : List Diagnostic) (d : Diagnostic)
    (st : RS) : st.out.length + 1 ≤ (printShort cfg secs d st).out.length := by
  simp only [printShort]
  refine le_trans ?_ (foldl_len _ _ (fun sec _ st' => ?_) _)
  · rw [emit_len]
    have hn : ("\n" : String).length = 1 := rfl
    rw [hn]
    refine Nat.add_le_add_right ?_ 1
    refine le_trans ?_ (Color.print_len _ _ _)
    refine le_trans ?_ (Color.print_len _ _ _)
    split_ifs
    · rw [emit_len]
      omega
    · exact le_refl _
  · simp only [printShortSecondary]
    rw [emit_len]
    refine le_trans ?_ (Nat.le_add_right _ _)
    refine le_trans ?_ (Color.print_len _ _ _)
    split_ifs
    · rw [emit_len]
      omega
    · exact le_refl _

theorem splitLinesAux_ne_nil : ∀ (l cur : List Char), splitLinesAux l cur ≠ [] := by
  intro l
  induction l with
  | nil => intro cur; simp [splitLinesAux]
  | cons c rest ih =>
    intro cur
    simp only [splitLinesAux]
    split_ifs
    · simp
    · exact ih _

theorem splitLines_ne_nil (s : String) : splitLines s ≠ [] :=
  splitLinesAux_ne_nil _ _

theorem foldl_len1 {α : Type} (f : RS → α → RS) (l : List α) (hne : l ≠ [])
    (h1 : ∀ x ∈ l, ∀ st : RS, st.out.length + 1 ≤ (f st x).out.length)
    (st : RS) : st.out.length + 1 ≤ (l.foldl f st).out.length := by
  cases l with
  | nil => exact absurd rfl hne
  | cons a t =>
    rw [List.foldl_cons]
    refine le_trans (h1 a (List.mem_cons_self a t) st)
      (foldl_len f t (fun x hx st' => ?_) _)
    exact le_trans (Nat.le_succ _) (h1 x (List.mem_cons_of_mem a hx) st')

theorem primAbove_ok (cfg : Config) (d : Diagnostic) (line : String)
    (maxLine : Nat) (hstart : d.loc.start ≤ line.length)
    (hend : d.loc.«end» ≤ line.length) (st : RS) :
    (primAbove cfg d line maxLine st).ok = st.ok := by
  simp only [primAbove]
  rw [emit_ok, arrows_ok _ _ _ _ _ _ _ hend, indent_ok _ _ _ _ _ (by omega),
    printLeft_ok]
  split_ifs
  · rw [foldl_ok _ _ (fun cl _ st' => by
      rw [emit_ok, Color.print_ok, indent_ok _ _ _ _ _ (by omega),
        printLeft_ok])]
  · rfl

theorem primAbove_len (cfg : Config) (d : Diagnostic) (line : String)
    (maxLine : Nat) (st : RS) :
    st.out.length ≤ (primAbove cfg d line maxLine st).out.length := by
  simp only [primAbove]
  rw [emit_len]
  refine le_trans ?_ (Nat.le_add_right _ _)
  refine le_trans ?_ (arrows_len _ _ _ _ _ _ _)
  refine le_trans ?_ (indent_len _ _ _ _ _)
  refine le_trans ?_ (printLeft_len _ _ _ _ _)
  split_ifs
  · refine foldl_len _ _ (fun cl _ st' => ?_) _
    rw [emit_len]
    refine le_trans ?_ (Nat.le_add_right _ _)
    refine le_trans ?_ (Color.print_len _ _ _)
    exact le_trans (printLeft_len _ _ _ _ _) (indent_len _ _ _ _ _)
  · exact le_refl _

theorem primBelow_ok (cfg : Config) (secs : List Diagnostic) (d : Diagnostic)
    (line : String) (maxLine i : Nat) (hstart : d.loc.start ≤ line.length)
    (hend : d.loc.«end» ≤ line.length) (st : RS) :
    (primBelow cfg secs d line maxLine i st).ok = st.ok := by
  simp only [primBelow]
  rw [foldl_ok _ _ (fun s _ st' => by
    split_ifs
    · rw [foldl_ok _ _ (fun str _ st'' => by
        rw [emit_ok, Color.print_ok, emit_ok, indent_ok _ _ _ _ _ (by omega),
          printLeft_ok])]
    · rfl)]
  split_ifs
  · rw [emit_ok, arrows_ok _ _ _ _ _ _ _ hend,
      indent_ok _ _ _ _ _ (by omega), printLeft_ok]
  · rw [foldl_ok _ _ (fun il _ st' => by
      rw [emit_ok, Color.print_ok, emit_ok]
      split_ifs
      · rw [indent_ok _ _ _ _ _ (by omega), printLeft_ok]
      · rfl)]
    rw [arrows_ok _ _ _ _ _ _ _ hend, indent_ok _ _ _ _ _ (by omega),
      printLeft_ok]

theorem primBelow_len (cfg : Config) (secs : List Diagnostic) (d : Diagnostic)
    (line : String) (maxLine i : Nat) (st : RS) :
    st.out.length ≤ (primBelow cfg secs d line maxLine i st).out.length := by
  simp only [primBelow]
  refine le_trans ?_ (foldl_len _ _ (fun s _ st' => ?_) _)
  · split_ifs
    · rw [emit_len]
      refine le_trans ?_ (Nat.le_add_right _ _)
      refine le_trans ?_ (arrows_len _ _ _ _ _ _ _)
      exact le_trans (printLeft_len _ _ _ _ _) (indent_len _ _ _ _ _)
    · refine le_trans ?_ (foldl_len _ _ (fun il _ st'' => ?_) _)
      · refine le_trans ?_ (arrows_len _ _ _ _ _ _ _)
        exact le_trans (printLeft_len _ _ _ _ _) (indent_len _ _ _ _ _)
      · rw [emit_len]
        refine le_trans ?_ (Nat.le_add_right _ _)
        refine le_trans ?_ (Color.print_len _ _ _)
        rw [emit_len]
        refine le_trans ?_ (Nat.le_add_right _ _)
        split_ifs
        · exact le_trans (printLeft_len _ _ _ _ _) (indent_len _ _ _ _ _)
        · exact le_refl _
  · split_ifs
    · refine foldl_len _ _ (fun str _ st'' => ?_) _
      rw [emit_len]
      refine le_trans ?_ (Nat.le_add_right _ _)
      refine le_trans ?_ (Color.print_len _ _ _)
      rw [emit_len]
      refine le_trans ?_ (Nat.le_add_right _ _)
      exact le_trans (printLeft_len _ _ _ _ _) (indent_len _ _ _ _ _)
    · exact le_refl _

theorem printRich2_len1 (cfg : Config) (acc : LineAcc) (secs : List Diagnostic)
    (d : Diagnostic) (maxLine : Nat) (printAbove : Bool) (fuel i lastLine : Nat)
    (currFile : Option SourceFile) (st : RS) (hi : i < secs.length)
    (hf : (secs.getD i default).loc.file.isSome = true) :
    st.out.length + 1 ≤
      (printRich2 cfg acc secs d maxLine printAbove (fuel + 1) i lastLine
        currFile st).2.2.out.length := by
  by_cases hc1 : currFile = none ∨
      (theFile (secs.getD i default).loc.file).path ≠ (theFile currFile).path
  · simp only [printRich2, if_pos (And.intro hi hf), if_pos hc1]
    refine le_trans ?_ (printRich2_len cfg acc secs d maxLine printAbove fuel _ _ _ _)
    refine le_trans ?_ (psol_len _ _ _ _ _ _ _ _)
    refine le_trans ?_ (printLine_len _ _ _)
    refine Nat.add_le_add_right ?_ 1
    refine le_trans ?_ (printLeftWithLineNum_len _ _ _ _ _ _)
    refine le_trans ?_ (foldl_len _ _ (fun k _ st' => ?_) _)
    · refine le_trans ?_ (Nat.le_of_succ_le (printTop_len _ _ _ _ _))
      split_ifs
      · exact Nat.le_of_succ_le (printBottom_len _ _ _ _)
      · exact le_refl _
    · rw [emit_len]
      exact le_trans (printLeft_len _ _ _ _ _) (Nat.le_add_right _ _)
  · by_cases hc2 : lastLine < sub32 (secs.getD i default).loc.line 1
    · simp only [printRich2, if_pos (And.intro hi hf), if_neg hc1, if_pos hc2]
      refine le_trans ?_ (printRich2_len cfg acc secs d maxLine printAbove fuel _ _ _ _)
      refine le_trans ?_ (psol_len _ _ _ _ _ _ _ _)
      refine le_trans ?_ (printLine_len _ _ _)
      refine Nat.add_le_add_right ?_ 1
      refine le_trans ?_ (printLeftWithLineNum_len _ _ _ _ _ _)
      exact printPadding_len _ _ _ _ _ _ _ _
    · simp only [printRich2, if_pos (And.intro hi hf), if_neg hc1, if_neg hc2]
      refine le_trans ?_ (printRich2_len cfg acc secs d maxLine printAbove fuel _ _ _ _)
      refine le_trans ?_ (psol_len _ _ _ _ _ _ _ _)
      refine le_trans ?_ (printLine_len _ _ _)
      refine Nat.add_le_add_right ?_ 1
      exact printLeftWithLineNum_len _ _ _ _ _ _

theorem printAfter_len1 (cfg : Config) (acc : LineAcc) (secs : List Diagnostic)
    (d : Diagnostic) (maxLine : Nat) (printAbove : Bool) (st : RS)
    (hne : secs ≠ []) :
    st.out.length + 1 ≤
      (printAfter cfg acc secs d maxLine printAbove 0 0 none st).out.length := by
  simp only [printAfter]
  by_cases hf0 : (secs.getD 0 default).loc.file.isSome = true
  · refine le_trans ?_ (foldl_len _ _ (fun sec _ st' => ?_) _)
    · have h1 := printRich2_len1 cfg acc secs d maxLine printAbove secs.length
        0 0 none st (List.length_pos.mpr hne) hf0
      split_ifs
      · exact le_trans h1 (Nat.le_of_succ_le (printBottom_len _ _ _ _))
      · exact h1
    · refine le_trans ?_ (foldl_len _ _ (fun il _ st'' => ?_) _)
      · exact le_trans (printLeft_len _ _ _ _ _) (Color.print_len _ _ _)
      · refine le_trans ?_ (Nat.le_of_succ_le (printLine_len _ _ _))
        split_ifs
        · rw [emit_len]
          exact le_trans (printLeft_len _ _ _ _ _) (Nat.le_add_right _ _)
        · exact le_refl _
  · have hg : ¬(0 < secs.length ∧ (secs.getD 0 default).loc.file.isSome = true) :=
      fun h => hf0 h.2
    simp only [printRich2, if_neg hg]
    rw [if_neg (by simp), List.drop_zero]
    refine foldl_len1 _ _ hne (fun sec hsec st' => ?_) st
    refine le_trans (Nat.add_le_add_right
      (le_trans (printLeft_len _ _ _ _ _) (Color.print_len _ _ _)) 1)
      (foldl_len1 _ _ ?_ (fun il _ st'' => ?_) _)
    · simp only [ne_eq, List.enum_eq_nil]
      exact splitLines_ne_nil sec.msg
    · refine le_trans ?_ (printLine_len _ _ _)
      refine Nat.add_le_add_right ?_ 1
      split_ifs
      · rw [emit_len]
        exact le_trans (printLeft_len _ _ _ _ _) (Nat.le_add_right _ _)
      · exact le_refl _

theorem printRichMain_ok (cfg : Config) (acc : LineAcc) (secs : List Diagnostic)
    (d : Diagnostic) (f : SourceFile) (maxLine : Nat) (printAbove : Bool)
    (i lastLine0 : Nat) (hdf : d.loc.file = some f)
    (hse : d.loc.start < d.loc.«end» ∧ d.loc.«end» ≤ (acc f d.loc.line).length)
    (hi : i ≤ secs.length)
    (hsecs : ∀ s ∈ secs, LocOK acc s ∧ ∀ c ∈ s.secondaries, c.loc = s.loc)
    (st : RS) :
    (printRichMain cfg acc secs d f maxLine printAbove i lastLine0 st).ok =
      st.ok := by
  obtain ⟨hlt, hle⟩ := hse
  have hA := primAbove_ok cfg d (acc f d.loc.line) maxLine (by omega) hle
  have hB := primBelow_ok cfg secs d (acc f d.loc.line) maxLine i (by omega) hle
  simp only [printRichMain]
  by_cases hr2 : i < secs.length ∧ onSameLine (secs.getD i default) d = true
  · simp only [if_pos hr2]
    have key : ∀ st' : RS,
        (printAfter cfg acc secs d maxLine printAbove
          (printSecondariesOnLine cfg secs d (acc f d.loc.line) i maxLine
            printAbove st').1
          d.loc.line d.loc.file
          (printSecondariesOnLine cfg secs d (acc f d.loc.line) i maxLine
            printAbove st').2).ok = st'.ok := by
      intro st'
      rw [printAfter_ok cfg acc secs d maxLine printAbove _ _ _ _
        (psol_fst_le cfg secs d (acc f d.loc.line) i maxLine printAbove st'
          hr2.1) hsecs]
      refine psol_ok cfg secs d _ i maxLine printAbove st' hr2.1 ?_
      intro x hx hsame
      rcases onSameLine_eq hsame with ⟨he1, he2⟩
      rcases onSameLine_eq hr2.2 with ⟨hgf, hgl⟩
      have hxf : x.loc.file = some f := by rw [he1, hgf, hdf]
      rcases (hsecs x hx).1 f hxf with ⟨hxlt, hxle⟩
      refine ⟨hxlt, ?_, (hsecs x hx).2⟩
      rw [he2, hgl] at hxle
      exact hxle
    rw [key]
    split_ifs <;>
      simp only [hA, hB, printLine_ok, printLeftWithLineNum_ok, emit_ok,
        printLeft_ok, printPadding_ok]
  · simp only [if_neg hr2]
    have key2 : ∀ st' : RS,
        (printAfter cfg acc secs d maxLine printAbove i d.loc.line d.loc.file
          st').ok = st'.ok :=
      fun st' => printAfter_ok cfg acc secs d maxLine printAbove i _ _ st' hi
        hsecs
    rw [key2]
    split_ifs <;>
      simp only [hA, hB, printLine_ok, printLeftWithLineNum_ok, emit_ok,
        printLeft_ok, printPadding_ok]

theorem printRichMain_len (cfg : Config) (acc : LineAcc) (secs : List Diagnostic)
    (d : Diagnostic) (f : SourceFile) (maxLine : Nat) (printAbove : Bool)
    (i lastLine0 : Nat) (st : RS) :
    st.out.length ≤
      (printRichMain cfg acc secs d f maxLine printAbove i lastLine0
        st).out.length := by
  simp only [printRichMain]
  by_cases hr2 : i < secs.length ∧ onSameLine (secs.getD i default) d = true
  · simp only [if_pos hr2]
    refine le_trans ?_ (printAfter_len _ _ _ _ _ _ _ _ _ _)
    refine le_trans ?_ (psol_len _ _ _ _ _ _ _ _)
    split_ifs <;>
      first
      | (refine le_trans ?_ (primBelow_len _ _ _ _ _ _ _)
         refine le_trans ?_ (Nat.le_of_succ_le (printLine_len _ _ _))
         refine le_trans ?_ (printLeftWithLineNum_len _ _ _ _ _ _)
         first
         | (rw [emit_len]
            exact le_trans (printLeft_len _ _ _ _ _) (Nat.le_add_right _ _))
         | exact printPadding_len _ _ _ _ _ _ _ _
         | exact le_refl _)
      | (refine le_trans ?_ (Nat.le_of_succ_le (printLine_len _ _ _))
         refine le_trans ?_ (printLeftWithLineNum_len _ _ _ _ _ _)
         refine le_trans ?_ (primAbove_len _ _ _ _ _)
         first
         | (rw [emit_len]
            exact le_trans (printLeft_len _ _ _ _ _) (Nat.le_add_right _ _))
         | exact printPadding_len _ _ _ _ _ _ _ _
         | exact le_refl _)
      | (refine le_trans ?_ (Nat.le_of_succ_le (printLine_len _ _ _))
         refine le_trans ?_ (printLeftWithLineNum_len _ _ _ _ _ _)
         first
         | (rw [emit_len]
            exact le_trans (printLeft_len _ _ _ _ _) (Nat.le_add_right _ _))
         | exact printPadding_len _ _ _ _ _ _ _ _
         | exact le_refl _)
  · simp only [if_neg hr2]
    refine le_trans ?_ (printAfter_len _ _ _ _ _ _ _ _ _ _)
    split_ifs <;>
      first
      | (refine le_trans ?_ (primBelow_len _ _ _ _ _ _ _)
         refine le_trans ?_ (Nat.le_of_succ_le (printLine_len _ _ _))
         refine le_trans ?_ (printLeftWithLineNum_len _ _ _ _ _ _)
         first
         | (rw [emit_len]
            exact le_trans (printLeft_len _ _ _ _ _) (Nat.le_add_right _ _))
         | exact printPadding_len _ _ _ _ _ _ _ _
         | exact le_refl _)
      | (refine le_trans ?_ (Nat.le_of_succ_le (printLine_len _ _ _))
         refine le_trans ?_ (printLeftWithLineNum_len _ _ _ _ _ _)
         refine le_trans ?_ (primAbove_len _ _ _ _ _)
         first
         | (rw [emit_len]
            exact le_trans (printLeft_len _ _ _ _ _) (Nat.le_add_right _ _))
         | exact printPadding_len _ _ _ _ _ _ _ _
         | exact le_refl _)
      | (refine le_trans ?_ (Nat.le_of_succ_le (printLine_len _ _ _))
         refine le_trans ?_ (printLeftWithLineNum_len _ _ _ _ _ _)
         first
         | (rw [emit_len]
            exact le_trans (printLeft_len _ _ _ _ _) (Nat.le_add_right _ _))
         | exact printPadding_len _ _ _ _ _ _ _ _
         | exact le_refl _)

theorem printRich_ok (cfg : Config) (acc : LineAcc) (secs : List Diagnostic)
    (d : Diagnostic) (st : RS) (hd : LocOK acc d)
    (hsecs : ∀ s ∈ secs, LocOK acc s ∧ ∀ c ∈ s.secondaries, c.loc = s.loc) :
    (printRich cfg acc secs d st).ok = st.ok := by
  rcases hdf : d.loc.file with _ | f
  · simp only [printRich, hdf]
    rw [printAfter_ok cfg acc secs d _ _ 0 0 none _ (Nat.zero_le _) hsecs]
    split_ifs
    · rw [emit_ok, Color.print_ok, Color.print_ok]
    · rfl
  · rcases hd f hdf with ⟨hlt, hle⟩
    simp only [printRich, hdf]
    rw [printRichMain_ok cfg acc secs d f _ _ _ _ hdf ⟨hlt, hle⟩
      (printRich1_fst_le cfg acc secs d _ _ _ _ _ _ (Nat.zero_le _)) hsecs]
    rw [printRich1_ok cfg acc secs d _ _ f hdf hsecs _ _ _ _ (Nat.zero_le _)
      (by omega)]
    rw [foldl_ok _ _ (fun k _ st' => by rw [emit_ok, printLeft_ok]),
      printTop_ok]
    split_ifs
    · rw [emit_ok, Color.print_ok, Color.print_ok]
    · rfl

theorem printRich_len1_msg (cfg : Config) (acc : LineAcc)
    (secs : List Diagnostic) (d : Diagnostic) (st : RS) (hm : d.msg ≠ "") :
    st.out.length + 1 ≤ (printRich cfg acc secs d st).out.length := by
  have hn : ("\n" : String).length = 1 := rfl
  rcases hdf : d.loc.file with _ | f
  · simp only [printRich, hdf]
    refine le_trans ?_ (printAfter_len _ _ _ _ _ _ _ _ _ _)
    rw [if_pos hm, emit_len, hn]
    exact Nat.add_le_add_right
      (le_trans (Color.print_len _ _ _) (Color.print_len _ _ _)) 1
  · simp only [printRich, hdf]
    refine le_trans ?_ (printRichMain_len _ _ _ _ _ _ _ _ _ _)
    refine le_trans ?_ (printRich1_len cfg acc secs d _ _ _ _ _ _)
    refine le_trans ?_ (foldl_len _ _ (fun k _ st' => ?_) _)
    · refine le_trans ?_ (Nat.le_of_succ_le (printTop_len _ _ _ _ _))
      rw [if_pos hm, emit_len, hn]
      exact Nat.add_le_add_right
        (le_trans (Color.print_len _ _ _) (Color.print_len _ _ _)) 1
    · rw [emit_len]
      exact le_trans (printLeft_len _ _ _ _ _) (Nat.le_add_right _ _)

theorem printRich_len1_file (cfg : Config) (acc : LineAcc)
    (secs : List Diagnostic) (d : Diagnostic) (st : RS) (f : SourceFile)
    (hdf : d.loc.file = some f) :
    st.out.length + 1 ≤ (printRich cfg acc secs d st).out.length := by
  simp only [printRich, hdf]
  refine le_trans ?_ (printRichMain_len _ _ _ _ _ _ _ _ _ _)
  refine le_trans ?_ (printRich1_len cfg acc secs d _ _ _ _ _ _)
  refine le_trans ?_ (foldl_len _ _ (fun k _ st' => ?_) _)
  · refine le_trans ?_ (printTop_len _ _ _ _ _)
    refine Nat.add_le_add_right ?_ 1
    split_ifs
    · rw [emit_len]
      exact le_trans
        (le_trans (Color.print_len _ _ _) (Color.print_len _ _ _))
        (Nat.le_add_right _ _)
    · exact le_refl _
  · rw [emit_len]
    exact le_trans (printLeft_len _ _ _ _ _) (Nat.le_add_right _ _)

theorem printRich_len1_secs (cfg : Config) (acc : LineAcc)
    (secs : List Diagnostic) (d : Diagnostic) (st : RS)
    (hdf : d.loc.file = none) (hne : secs ≠ []) :
    st.out.length + 1 ≤ (printRich cfg acc secs d st).out.length := by
  simp only [printRich, hdf]
  refine le_trans ?_ (printAfter_len1 cfg acc secs d _ _ _ hne)
  refine Nat.add_le_add_right ?_ 1
  split_ifs
  · rw [emit_len]
    exact le_trans
      (le_trans (Color.print_len _ _ _) (Color.print_len _ _ _))
      (Nat.le_add_right _ _)
  · exact le_refl _

theorem out_ne_empty {s : String} (h : 1 ≤ s.length) : s ≠ "" := by
  intro he
  rw [he] at h
  exact absurd h (by decide)

/-- Counterexample to the literal claim C6: the fully degenerate diagnostic
(empty message, no primary file, no secondaries) is well-formed, yet its
Rich-style rendering writes nothing at all to the sink. -/
theorem C6_counterexample :
    WF accLines (Help "" noLocation) ∧
    ((Help "" noLocation).print {} accLines).2.out = "" := by
  refine ⟨⟨?_, ?_⟩, ?_⟩
  · intro f hf
    exact Option.noConfusion hf
  · intro s hs
    exact absurd hs (List.not_mem_nil s)
  · rfl

/-- Claim C6 (amended): for every well-formed diagnostic tree, `print`
performs only in-bounds string indexing and its loops terminate (the
embedding's `ok` flag survives the whole rendering), and it writes some
text to the sink except in the fully degenerate Rich case — the output is
nonempty whenever the style is `SHORT`, or the message is nonempty, or the
primary has a file, or there is at least one secondary. -/
theorem C6_print_total (d : Diagnostic) (cfg : Config) (acc : LineAcc)
    (hwf : WF acc d) :
    (d.print cfg acc).2.ok = true ∧
    ((cfg.style = DisplayStyle.SHORT ∨ d.msg ≠ "" ∨ d.loc.file ≠ none ∨
        d.secondaries ≠ []) → (d.print cfg acc).2.out ≠ "") := by
  rcases d with ⟨m, sm, l, t, c, secs⟩
  have hloc : LocOK acc ((Diagnostic.mk m sm l t c secs).sortSecondaries) :=
    hwf.1
  have hsecs : ∀ s ∈ ((Diagnostic.mk m sm l t c secs).sortSecondaries).secondaries,
      LocOK acc s ∧ ∀ ch ∈ s.secondaries, ch.loc = s.loc := by
    intro s hs
    exact hwf.2 s ((List.perm_insertionSort (secLE l.file) secs).mem_iff.mp hs)
  by_cases hst : cfg.style = DisplayStyle.SHORT
  · constructor
    · simp only [Diagnostic.print, if_pos hst]
      rw [printShort_ok]
    · intro _
      simp only [Diagnostic.print, if_pos hst]
      refine out_ne_empty ?_
      have h := printShort_len1 cfg
        (((Diagnostic.mk m sm l t c secs).sortSecondaries).secondaries)
        ((Diagnostic.mk m sm l t c secs).sortSecondaries) ⟨"", true⟩
      simpa using h
  · constructor
    · simp only [Diagnostic.print, if_neg hst]
      rw [printRich_ok cfg acc _ _ _ hloc hsecs]
    · intro hne
      rcases hne with hne | hne | hne | hne
      · exact absurd hne hst
      · simp only [Diagnostic.print, if_neg hst]
        refine out_ne_empty ?_
        have h := printRich_len1_msg cfg acc
          (((Diagnostic.mk m sm l t c secs).sortSecondaries).secondaries)
          ((Diagnostic.mk m sm l t c secs).sortSecondaries) ⟨"", true⟩ hne
        simpa using h
      · obtain ⟨f, hf⟩ := Option.ne_none_iff_exists'.mp hne
        simp only [Diagnostic.print, if_neg hst]
        refine out_ne_empty ?_
        have h := printRich_len1_file cfg acc
          (((Diagnostic.mk m sm l t c secs).sortSecondaries).secondaries)
          ((Diagnostic.mk m sm l t c secs).sortSecondaries) ⟨"", true⟩ f hf
        simpa using h
      · by_cases hfile : (Diagnostic.mk m sm l t c secs).loc.file = none
        · simp only [Diagnostic.print, if_neg hst]
          refine out_ne_empty ?_
          have hsne : secs.insertionSort (secLE l.file) ≠ [] := by
            intro hnil
            apply hne
            have h2 := List.perm_insertionSort (secLE l.file) secs
            rw [hnil] at h2
            exact h2.symm.eq_nil
          have h := printRich_len1_secs cfg acc
            (((Diagnostic.mk m sm l t c secs).sortSecondaries).secondaries)
            ((Diagnostic.mk m sm l t c secs).sortSecondaries) ⟨"", true⟩ hfile
            hsne
          simpa using h
        · obtain ⟨f, hf⟩ := Option.ne_none_iff_exists'.mp hfile
          simp only [Diagnostic.print, if_neg hst]
          refine out_ne_empty ?_
          have h := printRich_len1_file cfg acc
            (((Diagnostic.mk m sm l t c secs).sortSecondaries).secondaries)
            ((Diagnostic.mk m sm l t c secs).sortSecondaries) ⟨"", true⟩ f hf
          simpa using h

/-- Witness for `C6_print_total`: a well-formed diagnostic with a real span
on a line long enough to hold it renders with the `ok` flag intact and a
nonempty output. -/
theorem C6_print_total_witness :
    WF accWords (Error "e" (mkLocation 4 9 13 (some fileA))) ∧
    (((Error "e" (mkLocation 4 9 13 (some fileA))).print {} accWords).2.ok =
        true ∧
      ((({} : Config).style = DisplayStyle.SHORT ∨
          (Error "e" (mkLocation 4 9 13 (some fileA))).msg ≠ "" ∨
          (Error "e" (mkLocation 4 9 13 (some fileA))).loc.file ≠ none ∨
          (Error "e" (mkLocation 4 9 13 (some fileA))).secondaries ≠ []) →
        (((Error "e" (mkLocation 4 9 13 (some fileA))).print {}
          accWords).2.out ≠ ""))) := by
  have hwf : WF accWords (Error "e" (mkLocation 4 9 13 (some fileA))) := by
    constructor
    · intro f hf
      have hf' : some fileA = some f := hf
      injection hf' with h
      subst h
      exact ⟨by decide, by decide⟩
    · intro s hs
      exact absurd hs (List.not_mem_nil s)
  exact ⟨hwf, C6_print_total (Error "e" (mkLocation 4 9 13 (some fileA))) {}
    accWords hwf⟩

/-! ### Pruning congruence (claim C10) -/

theorem clearSecs_msg (s : Diagnostic) : (clearSecs s).msg = s.msg := by
  cases s; rfl

theorem clearSecs_subMsg (s : Diagnostic) : (clearSecs s).subMsg = s.subMsg := by
  cases s; rfl

theorem clearSecs_loc (s : Diagnostic) : (clearSecs s).loc = s.loc := by
  cases s; rfl

theorem clearSecs_errTy (s : Diagnostic) : (clearSecs s).errTy = s.errTy := by
  cases s; rfl

theorem clearSecs_code (s : Diagnostic) : (clearSecs s).code = s.code := by
  cases s; rfl

theorem pruneChild_msg (s : Diagnostic) : (pruneChild s).msg = s.msg := by
  cases s; rfl

theorem pruneChild_subMsg (s : Diagnostic) : (pruneChild s).subMsg = s.subMsg := by
  cases s; rfl

theorem pruneChild_loc (s : Diagnostic) : (pruneChild s).loc = s.loc := by
  cases s; rfl

theorem pruneChild_errTy (s : Diagnostic) : (pruneChild s).errTy = s.errTy := by
  cases s; rfl

theorem pruneChild_code (s : Diagnostic) : (pruneChild s).code = s.code := by
  cases s; rfl

theorem pruneChild_secondaries (s : Diagnostic) :
    (pruneChild s).secondaries = s.secondaries.map clearSecs := by
  cases s; rfl

theorem color_congr {a b : Diagnostic} (h : a.errTy = b.errTy) (cfg : Config) :
    a.color cfg = b.color cfg := by
  unfold Diagnostic.color
  rw [h]

theorem tyToString_congr {a b : Diagnostic} (hty : a.errTy = b.errTy)
    (hcode : a.code = b.code) (cfg : Config) :
    a.tyToString cfg = b.tyToString cfg := by
  unfold Diagnostic.tyToString
  rw [hty, hcode]

theorem maybeInherit_congr {a b : Diagnostic} (h : a.errTy = b.errTy)
    (cfg : Config) (c : Color) : a.maybeInherit cfg c = b.maybeInherit cfg c := by
  unfold Diagnostic.maybeInherit
  rw [color_congr h]

theorem clearSecs_color (s : Diagnostic) (cfg : Config) :
    (clearSecs s).color cfg = s.color cfg :=
  color_congr (clearSecs_errTy s) cfg

theorem pruneChild_color (s : Diagnostic) (cfg : Config) :
    (pruneChild s).color cfg = s.color cfg :=
  color_congr (pruneChild_errTy s) cfg

theorem pruneChild_tyToString (s : Diagnostic) (cfg : Config) :
    (pruneChild s).tyToString cfg = s.tyToString cfg :=
  tyToString_congr (pruneChild_errTy s) (pruneChild_code s) cfg

theorem printLeft_congr (cfg : Config) {a b : Diagnostic}
    (h : a.errTy = b.errTy) (maxLine : Nat) (printBar : Bool) (st : RS) :
    printLeft cfg a maxLine printBar st = printLeft cfg b maxLine printBar st := by
  unfold printLeft
  rw [maybeInherit_congr h]

theorem printTop_congr (cfg : Config) {a b : Diagnostic}
    (h : a.errTy = b.errTy) (file : SourceFile) (maxLine : Nat) (st : RS) :
    printTop cfg a file maxLine st = printTop cfg b file maxLine st := by
  unfold printTop
  rw [maybeInherit_congr h, printLeft_congr cfg h]

theorem foldl_fun_congr {α : Type} {f g : RS → α → RS} (l : List α)
    (h : ∀ x ∈ l, ∀ st : RS, f st x = g st x) :
    ∀ st : RS, l.foldl f st = l.foldl g st := by
  induction l with
  | nil => intro st; rfl
  | cons a t ih =>
    intro st
    rw [List.foldl_cons, List.foldl_cons, h a (List.mem_cons_self a t),
      ih (fun x hx st' => h x (List.mem_cons_of_mem a hx) st')]

theorem printBottom_congr (cfg : Config) {a b : Diagnostic}
    (h : a.errTy = b.errTy) (maxLine : Nat) (st : RS) :
    printBottom cfg a maxLine st = printBottom cfg b maxLine st := by
  unfold printBottom
  simp only [maybeInherit_congr h, printLeft_congr cfg h]

theorem printLeftWithLineNum_congr (cfg : Config) {a b : Diagnostic}
    (hty : a.errTy = b.errTy) (hloc : a.loc = b.loc) (lineNum maxLine : Nat)
    (printBar : Bool) (st : RS) :
    printLeftWithLineNum cfg a lineNum maxLine printBar st =
      printLeftWithLineNum cfg b lineNum maxLine printBar st := by
  unfold printLeftWithLineNum
  rw [maybeInherit_congr hty, maybeInherit_congr hty, hloc]

theorem printPadding_congr (cfg : Config) {a b : Diagnostic}
    (hty : a.errTy = b.errTy) (hloc : a.loc = b.loc) (acc : LineAcc)
    (maxLine lastLine currLine : Nat) (file : SourceFile) (st : RS) :
    printPadding cfg a acc maxLine lastLine currLine file st =
      printPadding cfg b acc maxLine lastLine currLine file st := by
  unfold printPadding
  rw [color_congr hty, printLeftWithLineNum_congr cfg hty hloc]

theorem secLT_prune (file : Option SourceFile) (a b : Diagnostic) :
    secLT file (pruneChild a) (pruneChild b) = secLT file a b := by
  simp only [secLT, pruneChild_loc]

theorem secLE_prune (file : Option SourceFile) (a b : Diagnostic) :
    secLE file (pruneChild a) (pruneChild b) ↔ secLE file a b := by
  unfold secLE
  rw [secLT_prune]

theorem orderedInsert_prune (file : Option SourceFile) (a : Diagnostic) :
    ∀ l : List Diagnostic,
      (l.map pruneChild).orderedInsert (secLE file) (pruneChild a) =
        (l.orderedInsert (secLE file) a).map pruneChild := by
  intro l
  induction l with
  | nil => rfl
  | cons b t ih =>
    simp only [List.map_cons, List.orderedInsert]
    by_cases h : secLE file a b
    · rw [if_pos ((secLE_prune file a b).mpr h), if_pos h]
      rfl
    · rw [if_neg (fun hc => h ((secLE_prune file a b).mp hc)), if_neg h,
        List.map_cons, ih]

theorem insertionSort_prune (file : Option SourceFile) :
    ∀ l : List Diagnostic,
      (l.map pruneChild).insertionSort (secLE file) =
        (l.insertionSort (secLE file)).map pruneChild := by
  intro l
  induction l with
  | nil => rfl
  | cons a t ih =>
    simp only [List.map_cons, List.insertionSort]
    rw [ih, orderedInsert_prune]

theorem onSameLine_prune (a b : Diagnostic) :
    onSameLine (pruneChild a) (pruneChild b) = onSameLine a b := by
  simp only [onSameLine, pruneChild_loc]

theorem onSameLine_pruneL (a b : Diagnostic) :
    onSameLine (pruneChild a) b = onSameLine a b := by
  simp only [onSameLine, pruneChild_loc]

theorem onSameLine_pruneR (a b : Diagnostic) :
    onSameLine a (pruneChild b) = onSameLine a b := by
  simp only [onSameLine, pruneChild_loc]

theorem onSameLine_congr_right {b' b : Diagnostic} (h : b'.loc = b.loc)
    (a : Diagnostic) : onSameLine a b' = onSameLine a b := by
  simp only [onSameLine, h]

theorem getD_prune (l : List Diagnostic) (i : Nat) :
    (l.map pruneChild).getD i default = pruneChild (l.getD i default) :=
  List.getD_map l default pruneChild

theorem rows_getD_prune (rows : List (List Diagnostic)) (j : Nat) :
    (rows.map (List.map pruneChild)).getD j [] =
      (rows.getD j []).map pruneChild :=
  List.getD_map rows [] (List.map pruneChild)

theorem isEmpty_map {α β : Type} (f : α → β) (l : List α) :
    (l.map f).isEmpty = l.isEmpty := by
  cases l <;> rfl

theorem clash_prune (e d : Diagnostic) :
    clash (pruneChild e) (pruneChild d) = clash e d := by
  simp only [clash, pruneChild_loc]

theorem overlapsInner_prune (e d : Diagnostic) :
    overlapsInner (pruneChild e) (pruneChild d) = overlapsInner e d := by
  simp only [overlapsInner, pruneChild_loc]

theorem descend_prune (rows : List (List Diagnostic)) (e : Diagnostic) :
    ∀ dep : Nat,
      descend (rows.map (List.map pruneChild)) (pruneChild e) dep =
        descend rows e dep := by
  intro dep
  induction dep with
  | zero => rfl
  | succ d ih =>
    simp only [descend, rows_getD_prune, List.any_map, Function.comp_def,
      clash_prune, ih]

theorem buildStep_prune (rows : List (List Diagnostic)) (depth : Nat)
    (e : Diagnostic) :
    buildStep (rows.map (List.map pruneChild), depth) (pruneChild e) =
      ((buildStep (rows, depth) e).1.map (List.map pruneChild),
        (buildStep (rows, depth) e).2) := by
  by_cases hE : rows.isEmpty = true
  · simp only [buildStep, isEmpty_map, if_pos hE]
    rfl
  · simp only [buildStep, isEmpty_map, if_neg hE, rows_getD_prune,
      List.any_map, Function.comp_def, clash_prune, overlapsInner_prune,
      descend_prune, List.length_map]
    split_ifs <;>
      simp [List.map_append, List.map_set, rows_getD_prune]

theorem foldRows_prune : ∀ (run : List Diagnostic)
    (rows : List (List Diagnostic)) (depth : Nat),
    (run.map pruneChild).foldl buildStep
        (rows.map (List.map pruneChild), depth) =
      ((run.foldl buildStep (rows, depth)).1.map (List.map pruneChild),
        (run.foldl buildStep (rows, depth)).2) := by
  intro run
  induction run with
  | nil => intro rows depth; rfl
  | cons e t ih =>
    intro rows depth
    simp only [List.map_cons, List.foldl_cons]
    rw [buildStep_prune]
    exact ih _ _

theorem buildRows_prune (run : List Diagnostic) :
    buildRows (run.map pruneChild) = (buildRows run).map (List.map pruneChild) :=
  congrArg Prod.fst (foldRows_prune run [] 0)

theorem findConn_prune (rows : List (List Diagnostic)) (lineIdx : Nat) :
    ∀ k : Nat,
      findConn (rows.map (List.map pruneChild)) lineIdx k =
        (findConn rows lineIdx k).map pruneChild := by
  intro k
  induction k with
  | zero => rfl
  | succ k ih =>
    simp only [findConn, rows_getD_prune, List.find?_map, Function.comp_def,
      pruneChild_loc]
    rw [ih]
    split
    · rename_i d heq
      obtain ⟨a, ha, hpa⟩ := Option.map_eq_some'.mp heq
      rw [ha, ← hpa]
      rfl
    · rename_i heq
      rw [Option.map_eq_none'.mp heq]

theorem renderRowCol_prune (cfg : Config) (rows : List (List Diagnostic))
    (j : Nat) (line : String) (st : RS) (lineIdx : Nat) :
    renderRowCol cfg (rows.map (List.map pruneChild)) j line st lineIdx =
      renderRowCol cfg rows j line st lineIdx := by
  simp only [renderRowCol, rows_getD_prune, List.filter_map,
    Function.comp_def, pruneChild_loc, isEmpty_map, List.length_map,
    List.getLast?_map, findConn_prune]
  by_cases hemp : ((rows.getD j []).filter
      (fun c => decide (c.loc.start ≤ lineIdx ∧ lineIdx < c.loc.«end»))).isEmpty = true
  · rw [if_pos hemp, if_pos hemp]
    split
    · rename_i d heq
      obtain ⟨a, ha, hpa⟩ := Option.map_eq_some'.mp heq
      rw [ha, ← hpa, pruneChild_color]
    · rename_i heq
      rw [Option.map_eq_none'.mp heq]
  · rw [if_neg hemp, if_neg hemp]
    split
    · rename_i d heq
      obtain ⟨a, ha, hpa⟩ := Option.map_eq_some'.mp heq
      rw [ha, ← hpa, pruneChild_color]
    · rename_i heq
      rw [Option.map_eq_none'.mp heq]

theorem renderRows_prune (cfg : Config) {self' self : Diagnostic}
    (hty : self'.errTy = self.errTy) (rows : List (List Diagnostic))
    (line : String) (maxLine : Nat) (st : RS) :
    renderRows cfg self' (rows.map (List.map pruneChild)) line maxLine st =
      renderRows cfg self rows line maxLine st := by
  simp only [renderRows, List.length_map, renderRowCol_prune,
    printLeft_congr cfg hty]

theorem scanSameLine_prune (secs : List Diagnostic) (first : Diagnostic) :
    ∀ (fuel i : Nat),
      scanSameLine (secs.map pruneChild) (pruneChild first) fuel i =
        scanSameLine secs first fuel i := by
  intro fuel
  induction fuel with
  | zero => intro i; rfl
  | succ fu ih =>
    intro i
    simp only [scanSameLine, List.length_map, getD_prune, onSameLine_prune, ih]

theorem connBar_prune (secs : List Diagnostic) (first : Diagnostic)
    (t j : Nat) :
    connBar (secs.map pruneChild) (pruneChild first) t j =
      (connBar secs first t j).map pruneChild := by
  simp only [connBar, ← List.map_drop, List.takeWhile_map, List.find?_map,
    Function.comp_def, onSameLine_prune, onSameLine_pruneL, onSameLine_pruneR,
    pruneChild_loc]

theorem ladderCol_prune (cfg : Config) (secs : List Diagnostic)
    (first : Diagnostic) (line : String) (t j : Nat) (st : RS) :
    ladderCol cfg (secs.map pruneChild) (pruneChild first) line t j st =
      ladderCol cfg secs first line t j st := by
  simp only [ladderCol, connBar_prune]
  split
  · rename_i d heq
    obtain ⟨a, ha, hpa⟩ := Option.map_eq_some'.mp heq
    rw [ha, ← hpa, pruneChild_color]
  · rename_i heq
    rw [Option.map_eq_none'.mp heq]

theorem ladder_prune (cfg : Config) (secs : List Diagnostic)
    {self' self : Diagnostic} (hty : self'.errTy = self.errTy)
    (first : Diagnostic) (line : String) (maxLine : Nat) :
    ∀ (fuel t : Nat) (st : RS),
      ladder cfg (secs.map pruneChild) self' (pruneChild first) line maxLine
          fuel t st =
        ladder cfg secs self first line maxLine fuel t st := by
  intro fuel
  induction fuel with
  | zero => intro t st; rfl
  | succ fu ih =>
    intro t st
    simp only [ladder, List.length_map, getD_prune, onSameLine_prune,
      pruneChild_loc, pruneChild_msg, pruneChild_color,
      pruneChild_secondaries, List.foldl_map, clearSecs_msg, clearSecs_loc,
      clearSecs_color, ladderCol_prune, printLeft_congr cfg hty, ih]

theorem psol_prune (cfg : Config) (secs : List Diagnostic)
    {self' self : Diagnostic} (hty : self'.errTy = self.errTy)
    (hloc : self'.loc = self.loc) (line : String) (i maxLine : Nat)
    (shown : Bool) (st : RS) :
    printSecondariesOnLine cfg (secs.map pruneChild) self' line i maxLine
        shown st =
      printSecondariesOnLine cfg secs self line i maxLine shown st := by
  simp only [printSecondariesOnLine, getD_prune, pruneChild_loc, hloc,
    List.length_map, onSameLine_prune, printLeft_congr cfg hty,
    pruneChild_msg, pruneChild_color, pruneChild_secondaries,
    List.foldl_map, clearSecs_msg, clearSecs_loc, clearSecs_color,
    scanSameLine_prune, ← List.map_drop, ← List.map_take, ← List.map_reverse,
    buildRows_prune, renderRows_prune cfg hty, ladder_prune cfg secs hty]

theorem printRich1_prune (cfg : Config) (acc : LineAcc)
    (secs : List Diagnostic) {d' d : Diagnostic} (hty : d'.errTy = d.errTy)
    (hloc : d'.loc = d.loc) (maxLine : Nat) (printAbove : Bool) :
    ∀ (fuel i lastLine : Nat) (st : RS),
      printRich1 cfg acc (secs.map pruneChild) d' maxLine printAbove fuel i
          lastLine st =
        printRich1 cfg acc secs d maxLine printAbove fuel i lastLine st := by
  intro fuel
  induction fuel with
  | zero => intro i lastLine st; rfl
  | succ fu ih =>
    intro i lastLine st
    simp only [printRich1, List.length_map, getD_prune, pruneChild_loc, hloc,
      printLeft_congr cfg hty, printPadding_congr cfg hty hloc,
      printLeftWithLineNum_congr cfg hty hloc, psol_prune cfg secs hty hloc,
      ih]

theorem printRich2_prune (cfg : Config) (acc : LineAcc)
    (secs : List Diagnostic) {d' d : Diagnostic} (hty : d'.errTy = d.errTy)
    (hloc : d'.loc = d.loc) (maxLine : Nat) (printAbove : Bool) :
    ∀ (fuel i lastLine : Nat) (currFile : Option SourceFile) (st : RS),
      printRich2 cfg acc (secs.map pruneChild) d' maxLine printAbove fuel i
          lastLine currFile st =
        printRich2 cfg acc secs d maxLine printAbove fuel i lastLine
          currFile st := by
  intro fuel
  induction fuel with
  | zero => intro i lastLine currFile st; rfl
  | succ fu ih =>
    intro i lastLine currFile st
    simp only [printRich2, List.length_map, getD_prune, pruneChild_loc, hloc,
      printLeft_congr cfg hty, printTop_congr cfg hty,
      printBottom_congr cfg hty, printPadding_congr cfg hty hloc,
      printLeftWithLineNum_congr cfg hty hloc, psol_prune cfg secs hty hloc,
      ih]

theorem arrows_congr (cfg : Config) {a b : Diagnostic}
    (hty : a.errTy = b.errTy) (line : String) (s e : Nat) (ch : Char)
    (st : RS) : arrows cfg a line s e ch st = arrows cfg b line s e ch st := by
  simp only [arrows, color_congr hty]

theorem printAfter_prune (cfg : Config) (acc : LineAcc)
    (secs : List Diagnostic) {d' d : Diagnostic} (hty : d'.errTy = d.errTy)
    (hloc : d'.loc = d.loc) (maxLine : Nat) (printAbove : Bool)
    (i lastLine : Nat) (currFile : Option SourceFile) (st : RS) :
    printAfter cfg acc (secs.map pruneChild) d' maxLine printAbove i lastLine
        currFile st =
      printAfter cfg acc secs d maxLine printAbove i lastLine currFile st := by
  simp only [printAfter, List.length_map,
    printRich2_prune cfg acc secs hty hloc, ← List.map_drop, List.foldl_map,
    pruneChild_color, pruneChild_tyToString, pruneChild_msg,
    printBottom_congr cfg hty, printLeft_congr cfg hty]

theorem primAbove_congr (cfg : Config) {a b : Diagnostic}
    (hty : a.errTy = b.errTy) (hloc : a.loc = b.loc)
    (hsub : a.subMsg = b.subMsg) (line : String) (maxLine : Nat) (st : RS) :
    primAbove cfg a line maxLine st = primAbove cfg b line maxLine st := by
  simp only [primAbove, hsub, hloc, color_congr hty, printLeft_congr cfg hty,
    arrows_congr cfg hty]

theorem primBelow_prune (cfg : Config) (secs : List Diagnostic)
    {d' d : Diagnostic} (hty : d'.errTy = d.errTy) (hloc : d'.loc = d.loc)
    (hsub : d'.subMsg = d.subMsg) (line : String) (maxLine i : Nat) (st : RS) :
    primBelow cfg (secs.map pruneChild) d' line maxLine i st =
      primBelow cfg secs d line maxLine i st := by
  simp only [primBelow, hsub, hloc, color_congr hty, printLeft_congr cfg hty,
    arrows_congr cfg hty, ← List.map_drop, List.takeWhile_map,
    Function.comp_def, pruneChild_loc, List.foldl_map, pruneChild_msg,
    pruneChild_color]

theorem printRichMain_prune (cfg : Config) (acc : LineAcc)
    (secs : List Diagnostic) {d' d : Diagnostic} (hty : d'.errTy = d.errTy)
    (hloc : d'.loc = d.loc) (hsub : d'.subMsg = d.subMsg) (f : SourceFile)
    (maxLine : Nat) (printAbove : Bool) (i lastLine0 : Nat) (st : RS) :
    printRichMain cfg acc (secs.map pruneChild) d' f maxLine printAbove i
        lastLine0 st =
      printRichMain cfg acc secs d f maxLine printAbove i lastLine0 st := by
  simp only [printRichMain, List.length_map, getD_prune, onSameLine_pruneL,
    onSameLine_congr_right hloc, hloc, printLeft_congr cfg hty,
    printPadding_congr cfg hty hloc, printLeftWithLineNum_congr cfg hty hloc,
    primAbove_congr cfg hty hloc hsub, primBelow_prune cfg secs hty hloc hsub,
    psol_prune cfg secs hty hloc, printAfter_prune cfg acc secs hty hloc]

theorem printRich_prune (cfg : Config) (acc : LineAcc)
    (secs : List Diagnostic) {d' d : Diagnostic} (hS : SameScalars d' d)
    (st : RS) :
    printRich cfg acc (secs.map pruneChild) d' st =
      printRich cfg acc secs d st := by
  obtain ⟨hmsg, hsub, hloc, hty, hcode⟩ := hS
  rcases hdf : d.loc.file with _ | f
  · simp only [printRich, List.foldl_map, List.any_map, Function.comp_def,
      pruneChild_loc, hloc, hmsg, hdf, tyToString_congr hty hcode,
      color_congr hty, maybeInherit_congr hty, onSameLine_pruneL,
      onSameLine_congr_right hloc, printAfter_prune cfg acc secs hty hloc]
  · simp only [printRich, List.foldl_map, List.any_map, Function.comp_def,
      pruneChild_loc, hloc, hmsg, hdf, tyToString_congr hty hcode,
      color_congr hty, maybeInherit_congr hty, onSameLine_pruneL,
      onSameLine_congr_right hloc, printTop_congr cfg hty,
      printLeft_congr cfg hty, List.length_map,
      printRich1_prune cfg acc secs hty hloc,
      printRichMain_prune cfg acc secs hty hloc hsub]

theorem printShortSecondary_prune (cfg : Config) (st : RS) (s : Diagnostic) :
    printShortSecondary cfg st (pruneChild s) = printShortSecondary cfg st s := by
  simp only [printShortSecondary, pruneChild_loc, pruneChild_msg,
    pruneChild_color, pruneChild_tyToString]

theorem printShort_prune (cfg : Config) (secs : List Diagnostic)
    {d' d : Diagnostic} (hS : SameScalars d' d) (st : RS) :
    printShort cfg (secs.map pruneChild) d' st = printShort cfg secs d st := by
  obtain ⟨hmsg, hsub, hloc, hty, hcode⟩ := hS
  simp only [printShort, hloc, hmsg, color_congr hty,
    tyToString_congr hty hcode, maybeInherit_congr hty, List.foldl_map,
    printShortSecondary_prune]

theorem print_pruneDeep (cfg : Config) (acc : LineAcc) (d : Diagnostic) :
    ((pruneDeep d).print cfg acc).2 = (d.print cfg acc).2 := by
  rcases d with ⟨m, sm, l, t, c, secs⟩
  have hS : SameScalars
      (Diagnostic.mk m sm l t c
        ((secs.insertionSort (secLE l.file)).map pruneChild))
      (Diagnostic.mk m sm l t c (secs.insertionSort (secLE l.file))) :=
    ⟨rfl, rfl, rfl, rfl, rfl⟩
  by_cases hst : cfg.style = DisplayStyle.SHORT
  · simp only [Diagnostic.print, pruneDeep, Diagnostic.sortSecondaries,
      insertionSort_prune, if_pos hst, Diagnostic.secondaries_mk]
    exact printShort_prune cfg _ hS _
  · simp only [Diagnostic.print, pruneDeep, Diagnostic.sortSecondaries,
      insertionSort_prune, if_neg hst, Diagnostic.secondaries_mk]
    exact printRich_prune cfg acc _ hS _

/-- Claim C10: the rendered output of `print` reads only the top-level
secondaries and their direct children — pruning every deeper descendant
(`pruneDeep`) never changes the rendered text — and in the concrete triple
same-Location attachment the third diagnostic becomes a grandchild
(`m3` below `m2` below `m1`) whose message is absent from the Rich output
while `m1` and `m2` both appear. -/
theorem C10_deep_secondaries_invisible :
    (∀ (cfg : Config) (acc : LineAcc) (d : Diagnostic),
      ((pruneDeep d).print cfg acc).2 = (d.print cfg acc).2) ∧
    nestDiag.secondaries.map (fun s => (s.msg, s.secondaries.map
      (fun c2 => (c2.msg, c2.secondaries.map Diagnostic.msg)))) =
      [("m1", [("m2", ["m3"])])] ∧
    isSubstr "m1" (nestDiag.print {} accWords).2.out = true ∧
    isSubstr "m2" (nestDiag.print {} accWords).2.out = true ∧
    isSubstr "m3" (nestDiag.print {} accWords).2.out = false :=
  ⟨print_pruneDeep, by rfl, by rfl, by rfl, by rfl⟩

end reporter
